import Mathlib

/-!
Verification of the MatrixSSL buffer and ASN.1 decoding core.

This file contains a shallow embedding, in Lean 4, of the two source files
of the repository:

  * `crypto/keyformat/asn1.c` — the ASN.1 DER/BER primitive decoders
    (`getAsnLength32`, the 16-bit wrappers, `getAsnSequence32`, `getAsnSet32`,
    `getAsnInteger`, `getAsnEnumerated`);
  * `core/psbuf.c` — the fixed buffer (`psBuf_t`), the dynamic write buffer
    (`psDynBuf_t`) with its sub-buffer mechanism, and the parse buffer
    (`psParseBuf_t`) with `psParseBufGetTagLen` and the tag-reading helpers.

Memory is modelled as a byte oracle `Nat → Nat`: `byteAt d i` is the byte the
C code would read at address/offset `i` (bytes are reduced mod 256, since the
C code reads `unsigned char`).  Pointers become `Nat` offsets.  C functions
that communicate through out-parameters and a result code are modelled as
functions returning a structure holding the result code together with the
values of the out-parameters after the call; where the C code leaves an
out-parameter untouched on failure, the model uses `Option` (`none` =
untouched) or returns the unchanged input value, matching the source.

Machine integers: `uint32_t` arithmetic is `Nat` with explicit `% 2^32` where
the source can wrap; `int32_t` results are produced through `toInt32`, the
value-reinterpretation of a `uint32_t` bit pattern.  Numeric result codes
(`PS_SUCCESS`, `PS_LIMIT_FAIL`, ...) come from `coreApi.h`, which is not part
of the two source files; they are modelled from the spec (a small closed set
of distinct codes, success = 0, failures negative).
-/

/-- Reading one byte of memory: the oracle value reduced mod 256, because the
C code reads through `unsigned char *`. -/
def byteAt (d : Nat → Nat) (i : Nat) : Nat := d i % 256

/-- A byte oracle whose bytes 0,1,2,... are the entries of a list (0 beyond
the end of the list). -/
def listOracle (l : List Nat) : Nat → Nat := fun i => l.getD i 0

/-- The effect of `memcpy(dst + i, bs, bs.length)` on a region modelled as a
list of bytes. -/
def writeAt (l : List Nat) (i : Nat) (bs : List Nat) : List Nat :=
  l.take i ++ bs ++ l.drop (i + bs.length)

/-- Reinterpretation of a `uint32_t` bit pattern as an `int32_t` value, used
where the C source assigns an unsigned accumulator to a signed out-param. -/
def toInt32 (u : Nat) : Int :=
  if u % 0x100000000 < 0x80000000 then ((u % 0x100000000 : Nat) : Int)
  else ((u % 0x100000000 : Nat) : Int) - 0x100000000

/-- Unary minus on a `uint32_t` value (the `slen = -slen` step of the
integer decoders). -/
def neg32 (u : Nat) : Nat := (0x100000000 - u % 0x100000000) % 0x100000000

/-- Modelled from the spec: the result codes of `coreApi.h` (the header is not
among the source files).  Only their distinctness and sign matter: success is
0, every failure code is negative. -/
def PS_SUCCESS : Int := 0

/-- Modelled from the spec: generic failure code from `coreApi.h`. -/
def PS_FAILURE : Int := -1

/-- Modelled from the spec: argument-failure code from `coreApi.h`. -/
def PS_ARG_FAIL : Int := -6

/-- Modelled from the spec: memory-failure code from `coreApi.h`. -/
def PS_MEM_FAIL : Int := -8

/-- Modelled from the spec: limit-failure code from `coreApi.h`. -/
def PS_LIMIT_FAIL : Int := -9

/-- Modelled from the spec: output-length probe code from `coreApi.h`. -/
def PS_OUTPUT_LENGTH : Int := -17

/-- Modelled from the spec: parse-failure code from `coreApi.h`. -/
def PS_PARSE_FAIL : Int := -22

/-- Modelled from the spec: the distinguished non-negative code returned by
`getAsnLength32` for an indefinite length (never produced when the
`indefinite` argument is 0, as in every call modelled here). -/
def ASN_UNKNOWN_LEN : Int := 254

/-- ASN.1 tag byte for INTEGER (`asn1.h`, standard value). -/
def ASN_INTEGER : Nat := 0x02

/-- ASN.1 tag byte for ENUMERATED (`asn1.h`, standard value). -/
def ASN_ENUMERATED : Nat := 0x0A

/-- ASN.1 tag byte for `SEQUENCE | CONSTRUCTED` (`asn1.h`, standard values
0x10 and 0x20). -/
def ASN_SEQUENCE_CONSTRUCTED : Nat := 0x30

/-- ASN.1 tag byte for `SET | CONSTRUCTED` (`asn1.h`, standard values 0x11
and 0x20). -/
def ASN_SET_CONSTRUCTED : Nat := 0x31

/-- Result of `getAsnLength32`: the returned code, the value of `*pp` after
the call (unchanged on failure, as in the source) and the value of `*len`
after the call (the source sets `*len = 0` on entry, so it is 0 on
failure). -/
structure AsnLenResult where
  rc : Int
  p : Nat
  len : Nat
deriving DecidableEq

/-- Final section of `getAsnLength32` (asn1.c lines 126-133): the
stream-parser bounds check and the writing of the out-parameters. -/
def asnLenFinish (pp size indefinite c l : Nat) : AsnLenResult :=
  if indefinite = 0 ∧ pp + size - c < l then ⟨PS_LIMIT_FAIL, pp, 0⟩
  else ⟨PS_SUCCESS, c, l⟩

/-- Embedding of `getAsnLength32` (asn1.c lines 57-134). `pp` is the input
pointer, `size` the declared number of available bytes, `end = pp + size`. -/
def getAsnLength32 (d : Nat → Nat) (pp size indefinite : Nat) : AsnLenResult :=
  if size < 1 then ⟨PS_LIMIT_FAIL, pp, 0⟩
  else
    let l0 := byteAt d pp &&& 0x7F
    if byteAt d pp &&& 0x80 ≠ 0 then
      if pp + size - (pp + 1) < l0 then ⟨PS_LIMIT_FAIL, pp, 0⟩
      else if l0 = 4 then
        asnLenFinish pp size indefinite (pp + 1 + 4)
          ((byteAt d (pp + 1) <<< 24) ||| (byteAt d (pp + 1 + 1) <<< 16) |||
            (byteAt d (pp + 1 + 2) <<< 8) ||| byteAt d (pp + 1 + 3))
      else if l0 = 3 then
        asnLenFinish pp size indefinite (pp + 1 + 3)
          ((byteAt d (pp + 1) <<< 16) ||| (byteAt d (pp + 1 + 1) <<< 8) |||
            byteAt d (pp + 1 + 2))
      else if l0 = 2 then
        asnLenFinish pp size indefinite (pp + 1 + 2)
          ((byteAt d (pp + 1) <<< 8) ||| byteAt d (pp + 1 + 1))
      else if l0 = 1 then
        asnLenFinish pp size indefinite (pp + 1 + 1) (byteAt d (pp + 1))
      else if l0 = 0 then
        if indefinite ≠ 0 then ⟨ASN_UNKNOWN_LEN, pp + 1, size - 1⟩
        else ⟨PS_LIMIT_FAIL, pp, 0⟩
      else ⟨PS_LIMIT_FAIL, pp, 0⟩
    else
      asnLenFinish pp size indefinite (pp + 1) l0

/-- Result of the 16-bit wrappers: `*len` is a `uint16_t` out-parameter that
is untouched (`none`) when the wrapper returns early on failure. -/
structure AsnLen16Result where
  rc : Int
  p : Nat
  len : Option Nat
deriving DecidableEq

/-- Embedding of `getAsnLength` (asn1.c lines 45-55), the 16-bit wrapper:
`size` is a `uint16_t` (callers can only pass values below 2^16) and the
decoded 32-bit length is masked to its low 16 bits on success. -/
def getAsnLength (d : Nat → Nat) (pp size : Nat) : AsnLen16Result :=
  let r := getAsnLength32 d pp size 0
  if r.rc < 0 then ⟨r.rc, r.p, none⟩
  else ⟨PS_SUCCESS, r.p, some (r.len &&& 0xFFFF)⟩

/-- Result of `getAsnSequence32`/`getAsnSet32`: `*len` is untouched (`none`)
when the function fails before calling `getAsnLength32`. -/
structure AsnSeqResult where
  rc : Int
  p : Nat
  len : Option Nat
deriving DecidableEq

/-- Embedding of `getAsnSequence32` (asn1.c lines 143-169), including the
strict length check (`DISABLE_STRICT_ASN_LENGTH_CHECK` is not defined). -/
def getAsnSequence32 (d : Nat → Nat) (pp size indefinite : Nat) : AsnSeqResult :=
  if size < 1 then ⟨PS_PARSE_FAIL, pp, none⟩
  else if byteAt d pp ≠ ASN_SEQUENCE_CONSTRUCTED then ⟨PS_PARSE_FAIL, pp, none⟩
  else
    let r := getAsnLength32 d (pp + 1) (size - 1) indefinite
    if r.rc < 0 then ⟨r.rc, pp, some r.len⟩
    else if indefinite = 0 ∧ size - (r.p - pp) < r.len then ⟨PS_LIMIT_FAIL, pp, some r.len⟩
    else ⟨r.rc, r.p, some r.len⟩

/-- Embedding of `getAsnSequence` (asn1.c lines 171-181), the 16-bit
wrapper. -/
def getAsnSequence (d : Nat → Nat) (pp size : Nat) : AsnSeqResult :=
  let r := getAsnSequence32 d pp size 0
  if r.rc < 0 then ⟨r.rc, r.p, none⟩
  else ⟨PS_SUCCESS, r.p, r.len.map (· &&& 0xFFFF)⟩

/-- Embedding of `getAsnSet32` (asn1.c lines 188-206); its trailing bounds
check, unlike the sequence one, applies also in the indefinite case. -/
def getAsnSet32 (d : Nat → Nat) (pp size indefinite : Nat) : AsnSeqResult :=
  if size < 1 then ⟨PS_PARSE_FAIL, pp, none⟩
  else if byteAt d pp ≠ ASN_SET_CONSTRUCTED then ⟨PS_PARSE_FAIL, pp, none⟩
  else
    let r := getAsnLength32 d (pp + 1) (size - 1) indefinite
    if r.rc < 0 then ⟨r.rc, pp, some r.len⟩
    else if size < (r.p - pp) + r.len then ⟨PS_LIMIT_FAIL, pp, some r.len⟩
    else ⟨r.rc, r.p, some r.len⟩

/-- Embedding of `getAsnSet` (asn1.c lines 208-218), the 16-bit wrapper. -/
def getAsnSet (d : Nat → Nat) (pp size : Nat) : AsnSeqResult :=
  let r := getAsnSet32 d pp size 0
  if r.rc < 0 then ⟨r.rc, r.p, none⟩
  else ⟨PS_SUCCESS, r.p, r.len.map (· &&& 0xFFFF)⟩

/-- The big-endian accumulation loop of the integer decoders, plain branch:
`ui = (ui << 8) | *p; p++;` repeated `vlen` times on a `uint32_t`
accumulator. -/
def asnAccPos (d : Nat → Nat) : Nat → Nat → Nat → Nat
  | _, 0, acc => acc
  | p, n + 1, acc => asnAccPos d (p + 1) n (((acc <<< 8) ||| byteAt d p) % 0x100000000)

/-- The big-endian accumulation loop of the integer decoders, negative
branch: `ui = (ui << 8) | (*p ^ 0xFF); p++;` repeated `vlen` times. -/
def asnAccNeg (d : Nat → Nat) : Nat → Nat → Nat → Nat
  | _, 0, acc => acc
  | p, n + 1, acc => asnAccNeg d (p + 1) n (((acc <<< 8) ||| (byteAt d p ^^^ 0xFF)) % 0x100000000)

/-- Result of `getAsnInteger`/`getAsnEnumerated`: on success the advanced
pointer and the decoded `int32_t` value; on failure the returned code (the
out-parameters are untouched). -/
inductive AsnIntResult where
  | ok (p : Nat) (val : Int)
  | err (rc : Int)
deriving DecidableEq

/-- Embedding of `getAsnInteger` (asn1.c lines 277-325). `end = pp + len`.
Note that the sign test `*p & 0x80` reads the byte at the current pointer
unconditionally, even when the decoded content length `vlen` is 0 and that
byte lies at `pp + len`, one past the declared end. -/
def getAsnInteger (d : Nat → Nat) (pp len : Nat) : AsnIntResult :=
  if len < 1 then .err PS_PARSE_FAIL
  else if byteAt d pp ≠ ASN_INTEGER then .err PS_PARSE_FAIL
  else
    let r := getAsnLength32 d (pp + 1) (len - 1) 0
    if r.rc < 0 then .err r.rc
    else if 4 < r.len ∨ pp + len - r.p < r.len then .err PS_LIMIT_FAIL
    else if byteAt d r.p &&& 0x80 ≠ 0 then
      .ok (r.p + r.len) (toInt32 (neg32 ((asnAccNeg d r.p r.len 0 + 1) % 0x100000000)))
    else
      .ok (r.p + r.len) (toInt32 (asnAccPos d r.p r.len 0))

/-- Embedding of `getAsnEnumerated` (asn1.c lines 223-271); the body is the
same as `getAsnInteger` except for the expected tag byte. -/
def getAsnEnumerated (d : Nat → Nat) (pp len : Nat) : AsnIntResult :=
  if len < 1 then .err PS_PARSE_FAIL
  else if byteAt d pp ≠ ASN_ENUMERATED then .err PS_PARSE_FAIL
  else
    let r := getAsnLength32 d (pp + 1) (len - 1) 0
    if r.rc < 0 then .err r.rc
    else if 4 < r.len ∨ pp + len - r.p < r.len then .err PS_LIMIT_FAIL
    else if byteAt d r.p &&& 0x80 ≠ 0 then
      .ok (r.p + r.len) (toInt32 (neg32 ((asnAccNeg d r.p r.len 0 + 1) % 0x100000000)))
    else
      .ok (r.p + r.len) (toInt32 (asnAccPos d r.p r.len 0))

/-- Embedding of `psBuf_t` (psbuf.c): pointers become `Nat` offsets into the
byte oracle.  `buf` is the origin, `start` the read cursor, `stop` the write
cursor (`end` in the source, renamed because `end` is a Lean keyword), `size`
the capacity. -/
structure psBufS where
  buf : Nat
  start : Nat
  stop : Nat
  size : Nat
deriving DecidableEq

/-- The fixed-buffer invariant stated by the spec:
`origin ≤ readStart ≤ writeEnd ≤ origin + capacity`. -/
def psBufInvariant (b : psBufS) : Prop :=
  b.buf ≤ b.start ∧ b.start ≤ b.stop ∧ b.stop ≤ b.buf + b.size

/-- Embedding of `psBufInit` (psbuf.c lines 50-57): `origin` is the address
`psMalloc` would return; `allocOk` models whether the external allocator
succeeds (on failure all pointers are NULL = 0 and the capacity is 0). -/
def psBufInit (origin capacity : Nat) (allocOk : Bool) : psBufS :=
  if allocOk then ⟨origin, origin, origin, capacity⟩ else ⟨0, 0, 0, 0⟩

/-- Embedding of `psBufUninit` (psbuf.c lines 59-66): every field is
zeroed. -/
def psBufUninit (_b : psBufS) : psBufS := ⟨0, 0, 0, 0⟩

/-- Embedding of `psBufFromStaticData` (psbuf.c lines 98-106): wraps external
memory at address `a` as a non-owned view; a NULL `data` argument
(`dataPresent = false`) forces length 0 and an argument failure. -/
def psBufFromStaticData (dataPresent : Bool) (a len : Nat) : Int × psBufS :=
  let l := if dataPresent then len else 0
  (if dataPresent then PS_SUCCESS else PS_ARG_FAIL, ⟨a, a, a + l, l⟩)

/-- Embedding of `psBufAppendSize` (psbuf.c lines 122-132): returns the old
write cursor as the write location if `end + sz` stays within capacity,
otherwise `none` with the buffer unchanged. -/
def psBufAppendSize (b : psBufS) (sz : Nat) : Option Nat × psBufS :=
  if b.stop + sz ≤ b.buf + b.size then (some b.stop, { b with stop := b.stop + sz })
  else (none, b)

/-- Embedding of `psBufReservePrepend` (psbuf.c lines 134-145): moves both
cursors forward by `sz` if that stays within capacity, else silently does
nothing. -/
def psBufReservePrepend (b : psBufS) (sz : Nat) : psBufS :=
  if b.stop + sz ≤ b.buf + b.size then { b with start := b.start + sz, stop := b.stop + sz }
  else b

/-- Embedding of `psBufPrependSize` (psbuf.c lines 147-155): moves the read
cursor back by `sz` and returns it if `buf ≤ start` and `buf + sz ≤ start`,
else `none`. -/
def psBufPrependSize (b : psBufS) (sz : Nat) : Option Nat × psBufS :=
  if b.buf ≤ b.start ∧ b.buf + sz ≤ b.start then
    (some (b.start - sz), { b with start := b.start - sz })
  else (none, b)

/-- Embedding of `psParseBuf_t`: a fixed-buffer view plus the sticky error
counter.  The `master` back-pointer is modelled functionally: operations that
consult or update the master take it as an explicit argument. -/
structure psParseBufS where
  buf : psBufS
  err : Nat
deriving DecidableEq

/-- Embedding of `psParseBufFromStaticData` (psbuf.c lines 529-536) for data
at address `base`; `dataPresent = false` models a NULL `data` pointer, which
makes `psBufFromStaticData` fail and sets the error counter. -/
def psParseBufFromStaticData (dataPresent : Bool) (base len : Nat) : psParseBufS :=
  let r := psBufFromStaticData dataPresent base len
  ⟨r.2, if r.1 = PS_SUCCESS then 0 else 1⟩

/-- The length-byte accumulation loop of `psParseBufGetTagLen`
(psbuf.c lines 589-594): `len_content <<= 8; len_content += ptr[len_at];`
repeated `lenlen` times (`len_content` is a `size_t`; with at most 4 length
bytes it stays below 2^32, far from any wrap). -/
def psParseLenLoop (d : Nat → Nat) (ptr : Nat) : Nat → Nat → Nat → Nat
  | _, 0, acc => acc
  | len_at, n + 1, acc => psParseLenLoop d ptr (len_at + 1) n ((acc <<< 8) + byteAt d (ptr + len_at))

/-- Trailing section of `psParseBufGetTagLen` (psbuf.c lines 588-607): decode
the length bytes, apply the 1 GiB ceiling and the availability check, and
return `(len_out, len_hdr)`; every failure returns `(0, 0)` (the source
returns 0 and leaves `*hdrLen_p` untouched). -/
def psParseTagLenFinish (d : Nat → Nat) (ptr bytes len_at lenlen len_hdr : Nat) : Nat × Nat :=
  let len_content := psParseLenLoop d ptr len_at lenlen 0
  if len_content > 0x40000000 then (0, 0)
  else if len_content + len_hdr > bytes then (0, 0)
  else (len_content + len_hdr, len_hdr)

/-- Embedding of `psParseBufGetTagLen` (psbuf.c lines 542-608).  Returns the
pair `(total header+content length, header length)`; all the rejection paths
of the source return 0, modelled as `(0, 0)`. -/
def psParseBufGetTagLen (d : Nat → Nat) (pb : psParseBufS) (tag : Nat) : Nat × Nat :=
  let ptr := pb.buf.start
  let bytes := pb.buf.stop - pb.buf.start
  if bytes < 2 then (0, 0)
  else if tag ≠ 0 ∧ byteAt d ptr ≠ tag then (0, 0)
  else
    let lenlen := byteAt d (ptr + 1)
    if 0x80 ≤ lenlen then
      if bytes < 0x83 then (0, 0)
      else if lenlen = 0x81 ∧ byteAt d (ptr + 2) < 0x80 then (0, 0)
      else if lenlen = 0x82 ∧ byteAt d (ptr + 2) = 0 then (0, 0)
      else if lenlen = 0x83 ∧ byteAt d (ptr + 2) = 0 then (0, 0)
      else if lenlen = 0x84 ∧ byteAt d (ptr + 2) = 0 then (0, 0)
      else if lenlen = 0x80 ∨ 0x84 < lenlen then (0, 0)
      else psParseTagLenFinish d ptr bytes 2 (lenlen - 0x80) (2 + (lenlen - 0x80))
    else psParseTagLenFinish d ptr bytes 1 1 2

/-- Embedding of `psParseBufTryReadTagSub` (psbuf.c lines 636-667): returns
the total length and the child parse buffer carved over the content span (on
failure a child marked with error count 1 and NULL fields, without touching
the parent). -/
def psParseBufTryReadTagSub (d : Nat → Nat) (pb : psParseBufS) (tag : Nat) :
    Nat × psParseBufS :=
  let r := psParseBufGetTagLen d pb tag
  if r.1 = 0 then (0, ⟨⟨0, 0, 0, 0⟩, 1⟩)
  else
    let len_content := r.1 - r.2
    (r.1, ⟨⟨pb.buf.start + r.2, pb.buf.start + r.2, pb.buf.start + r.2 + len_content,
      len_content⟩, 0⟩)

/-- Embedding of `psParseBufReadTagSub` (psbuf.c lines 669-683): like the
`try` variant, but on failure raises the parent's error counter and aliases
the child's view to the parent's buffer.  Returns
`(length, updated parent, child)`. -/
def psParseBufReadTagSub (d : Nat → Nat) (pb : psParseBufS) (tag : Nat) :
    Nat × psParseBufS × psParseBufS :=
  let r := psParseBufTryReadTagSub d pb tag
  if r.1 = 0 then (0, { pb with err := pb.err + 1 }, ⟨pb.buf, r.2.err⟩)
  else (r.1, pb, r.2)

/-- Embedding of `psParseBufCheckState` (psbuf.c lines 745-748). -/
def psParseBufCheckState (pb : psParseBufS) : Int :=
  if pb.err = 0 then PS_SUCCESS else PS_FAILURE

/-- Embedding of `psParseBufFinish` (psbuf.c lines 750-771) for a buffer
whose `master` link is `hasMaster`: returns the result code and the updated
master (the finished buffer itself is torn down).  On success the master's
read cursor advances to just past the child's full claimed span. -/
def psParseBufFinish (pb : psParseBufS) (hasMaster : Bool) (master : psParseBufS) :
    Int × psParseBufS :=
  let master' :=
    if hasMaster then
      if pb.err ≠ 0 then { master with err := master.err + 1 }
      else { master with buf := { master.buf with start := pb.buf.buf + pb.buf.size } }
    else master
  (psParseBufCheckState pb, master')

/-- Abstract state of a root `psDynBuf_t` (one with `master == NULL`).  The
correspondence with the `psBuf_t` fields is: `headroom = start - buf`,
`content` = the bytes in `[start, end)`, `tailroom = buf + size - end`, and
`err` is the sticky error counter.  Bytes of capacity that have been claimed
but never written are modelled as the byte 0. -/
structure DynBufRoot where
  headroom : Nat
  content : List Nat
  tailroom : Nat
  err : Nat
deriving DecidableEq

/-- Embedding of `psDynBufGrow` (psbuf.c lines 209-297) for a root buffer
(`master == NULL` branch).  `growMin` is the `PS_DYNBUF_GROW` constant
(modelled from the spec: the header defining it is not among the source
files; the spec calls it a minimum grow increment, and no result below
depends on its value).  `allocOk` models the external allocator: on success
the content is copied into a region with the requested extra head and tail
room, on failure the sticky error counter is incremented.  The returned
Bool is whether the C function returns a non-NULL location. -/
def psDynBufGrow (growMin : Nat) (allocOk : Bool) (db : DynBufRoot)
    (head_sz tail_sz : Nat) : Bool × DynBufRoot :=
  if db.err ≠ 0 then (false, db)
  else
    let hs := if head_sz ≠ 0 ∧ head_sz < growMin then growMin else head_sz
    let ts := if tail_sz < growMin then growMin else tail_sz
    if allocOk then
      (true, { db with headroom := db.headroom + hs, tailroom := db.tailroom + ts })
    else
      (false, { db with err := db.err + 1 })

/-- Embedding of `psDynBufAppendSize` (psbuf.c lines 299-308): the
`psBufAppendSize` fast path succeeds exactly when the tail room suffices
(note: it is tried first, without consulting the error counter); otherwise
grow and retry. -/
def psDynBufAppendSize (growMin : Nat) (allocOk : Bool) (db : DynBufRoot)
    (sz : Nat) : Bool × DynBufRoot :=
  if sz ≤ db.tailroom then
    (true, { db with content := db.content ++ List.replicate sz 0,
                     tailroom := db.tailroom - sz })
  else
    let g := psDynBufGrow growMin allocOk db 0 sz
    if g.1 then
      if sz ≤ g.2.tailroom then
        (true, { g.2 with content := g.2.content ++ List.replicate sz 0,
                          tailroom := g.2.tailroom - sz })
      else (false, g.2)
    else (false, g.2)

/-- Embedding of `psDynBufPrependSize` (psbuf.c lines 361-370): the
`psBufPrependSize` fast path succeeds exactly when the head room suffices;
otherwise grow (head side) and retry. -/
def psDynBufPrependSize (growMin : Nat) (allocOk : Bool) (db : DynBufRoot)
    (sz : Nat) : Bool × DynBufRoot :=
  if sz ≤ db.headroom then
    (true, { db with content := List.replicate sz 0 ++ db.content,
                     headroom := db.headroom - sz })
  else
    let g := psDynBufGrow growMin allocOk db sz 0
    if g.1 then
      if sz ≤ g.2.headroom then
        (true, { g.2 with content := List.replicate sz 0 ++ g.2.content,
                          headroom := g.2.headroom - sz })
      else (false, g.2)
    else (false, g.2)

/-- Embedding of `psDynBufAppendUtf8` (psbuf.c lines 310-349): encode the
codepoint (1-4 bytes by range), reserve space with `psDynBufAppendSize` and
write the encoded bytes into the reserved span; codepoints above 0x1FFFF
raise the sticky error. -/
def psDynBufAppendUtf8 (growMin : Nat) (allocOk : Bool) (db : DynBufRoot)
    (ch : Nat) : Bool × DynBufRoot :=
  if 0x1FFFF < ch then (false, { db with err := db.err + 1 })
  else
    let enc :=
      if ch < 128 then [ch]
      else if ch ≤ 0x7FF then
        [0xC0 ||| (ch >>> 6), 0x80 ||| (ch &&& 63)]
      else if ch ≤ 0xFFFF then
        [0xE0 ||| (ch >>> 12), 0x80 ||| ((ch >>> 6) &&& 63), 0x80 ||| (ch &&& 63)]
      else
        [0xF0 ||| (ch >>> 18), 0x80 ||| ((ch >>> 12) &&& 63),
          0x80 ||| ((ch >>> 6) &&& 63), 0x80 ||| (ch &&& 63)]
    let r := psDynBufAppendSize growMin allocOk db enc.length
    if r.1 then
      (true, { r.2 with content := r.2.content.take (r.2.content.length - enc.length) ++ enc })
    else (false, r.2)

/-- Embedding of `psDynBufUninit` (psbuf.c lines 166-172): the buffer is
released and every field, including the sticky error counter, is cleared. -/
def psDynBufUninit (_db : DynBufRoot) : DynBufRoot := ⟨0, [], 0, 0⟩

/-- State of a live sub-buffer (`psDynBuf_t` with `master` set) over a root
master, during the window between `psDynBufSubInit` and `psDynBufSubFinish`.
`subOff` is `sub.buf.buf - master.buf.start` (the offset of the claimed span
inside the master's content), `subStart`/`subEnd` are the sub's own cursors
relative to `sub.buf.buf`, `subSize` its claimed capacity. -/
structure SubBufState where
  master : DynBufRoot
  subOff : Nat
  subStart : Nat
  subEnd : Nat
  subSize : Nat
  subErr : Nat
deriving DecidableEq

/-- Embedding of `psDynBufSubInit` (psbuf.c lines 372-395): claim `capacity`
bytes at the master's write end via `psDynBufAppendSize`, fill them with
`'#'` (0x23, the debugging memset of the source) and hand the span to a
fresh child; on failure the child is born in error and the master's error
counter is raised once more. -/
def psDynBufSubInit (growMin : Nat) (allocOk : Bool) (db : DynBufRoot)
    (capacity : Nat) : Bool × SubBufState :=
  let r := psDynBufAppendSize growMin allocOk db capacity
  if r.1 then
    let db2 := { r.2 with
      content := writeAt r.2.content (r.2.content.length - capacity)
        (List.replicate capacity 0x23) }
    (true, { master := db2, subOff := r.2.content.length - capacity,
             subStart := 0, subEnd := 0, subSize := capacity, subErr := 0 })
  else
    (false, { master := { r.2 with err := r.2.err + 1 }, subOff := 0,
              subStart := 0, subEnd := 0, subSize := 0, subErr := 1 })

/-- Writing `bs` into a live sub-buffer: `psDynBufAppendSize(sub, |bs|)`
followed by a `memcpy` into the returned location.  Only the
`psBufAppendSize` fast path of the source is modelled (`subEnd + |bs| ≤
subSize`); the slow path would recursively grow the master
(`psDynBufGrow` with `master` set) and is never taken in the claims below,
which write at most `subSize` bytes in total. -/
def psDynBufSubAppendBytes (st : SubBufState) (bs : List Nat) : Bool × SubBufState :=
  if st.subEnd + bs.length ≤ st.subSize then
    (true, { st with
      master := { st.master with
        content := writeAt st.master.content (st.subOff + st.subEnd) bs },
      subEnd := st.subEnd + bs.length })
  else (false, st)

/-- Embedding of `psDynBufSubFinish` (psbuf.c lines 423-451) for a sub of a
root master: on child error, fold the child's error count into the master;
otherwise compact the child's content to the front of its claimed span, shift
the master bytes that followed the span down to close the gap, and pull the
master's write cursor back by the unused capacity.  The returned Bool is
whether the C function returns a non-NULL location. -/
def psDynBufSubFinish (st : SubBufState) : Bool × DynBufRoot :=
  let db := st.master
  if st.subErr ≠ 0 then (false, { db with err := db.err + st.subErr })
  else
    let total := st.subSize
    let filled := st.subEnd - st.subStart
    let len := db.content.length
    let offset_tail := len - (st.subOff + st.subSize)
    let c1 :=
      if st.subStart ≠ 0 ∧ 0 < filled then
        writeAt db.content st.subOff ((db.content.drop (st.subOff + st.subStart)).take filled)
      else db.content
    let c2 :=
      if 0 < offset_tail then
        writeAt c1 (len - total + filled - offset_tail) ((c1.drop (len - offset_tail)).take offset_tail)
      else c1
    (true, { db with content := c2.take (len - total + filled),
                     tailroom := db.tailroom + (total - filled) })

/-- Canonical DER content octets of a 32-bit signed integer `v`: the
minimal-length two's-complement big-endian encoding (1 to 4 bytes).  This
definition follows the DER rule, not the decoder: the shortest byte count
whose signed range contains `v`, with negative values represented mod
2^(8·bytes). -/
def derIntContent (v : Int) : List Nat :=
  if 0 ≤ v then
    let w := v.toNat
    if w < 0x80 then [w]
    else if w < 0x8000 then [w / 0x100, w % 0x100]
    else if w < 0x800000 then [w / 0x10000, w / 0x100 % 0x100, w % 0x100]
    else [w / 0x1000000, w / 0x10000 % 0x100, w / 0x100 % 0x100, w % 0x100]
  else
    if -0x80 ≤ v then [(v + 0x100).toNat]
    else if -0x8000 ≤ v then
      [(v + 0x10000).toNat / 0x100, (v + 0x10000).toNat % 0x100]
    else if -0x800000 ≤ v then
      [(v + 0x1000000).toNat / 0x10000, (v + 0x1000000).toNat / 0x100 % 0x100,
        (v + 0x1000000).toNat % 0x100]
    else
      [(v + 0x100000000).toNat / 0x1000000, (v + 0x100000000).toNat / 0x10000 % 0x100,
        (v + 0x100000000).toNat / 0x100 % 0x100, (v + 0x100000000).toNat % 0x100]

/-- Canonical DER encoding of a 32-bit signed integer: tag 0x02, short-form
length (1-4), then the content octets. -/
def derIntEncode (v : Int) : List Nat :=
  0x02 :: (derIntContent v).length :: derIntContent v

set_option maxRecDepth 4096 in
/-- A byte and-ed with 0x80 vanishes exactly on bytes below 0x80 (table
checked over all byte values). -/
theorem and128_table : ∀ b : Fin 256, (b : Nat) &&& 128 = if (b : Nat) < 128 then 0 else 128 := by
  decide

set_option maxRecDepth 4096 in
/-- A byte and-ed with 0x7F is its remainder mod 128 (table checked over all
byte values). -/
theorem and127_table : ∀ b : Fin 256, (b : Nat) &&& 127 = (b : Nat) % 128 := by
  decide

set_option maxRecDepth 4096 in
/-- Xor with 0xFF complements a byte (table checked over all byte values). -/
theorem xor255_table : ∀ b : Fin 256, (b : Nat) ^^^ 255 = 255 - (b : Nat) := by
  decide

theorem and128_eq (b : Nat) (hb : b < 256) : b &&& 128 = if b < 128 then 0 else 128 :=
  and128_table ⟨b, hb⟩

theorem and127_eq (b : Nat) (hb : b < 256) : b &&& 127 = b % 128 :=
  and127_table ⟨b, hb⟩

theorem xor255_eq (b : Nat) (hb : b < 256) : b ^^^ 255 = 255 - b :=
  xor255_table ⟨b, hb⟩

/-- Shift-or accumulation step is positional arithmetic when the incoming
byte fits below the shifted field. -/
theorem shiftOr_eq (a b : Nat) (hb : b < 256) : (a <<< 8) ||| b = a * 256 + b := by
  rw [Nat.shiftLeft_eq]
  have h := Nat.mul_add_lt_is_or (i := 8) (by norm_num [hb] : b < 2 ^ 8) a
  calc a * 2 ^ 8 ||| b = 2 ^ 8 * a ||| b := by ring_nf
    _ = 2 ^ 8 * a + b := (h).symm
    _ = a * 256 + b := by ring

theorem byteAt_lt (d : Nat → Nat) (i : Nat) : byteAt d i < 256 :=
  Nat.mod_lt _ (by norm_num)

/-- C1: out-of-bounds witness oracle, bytes `02 00` then zeros. -/
def c1OracleA : Nat → Nat := listOracle [0x02, 0x00]

/-- C1: same two in-bounds bytes `02 00`, but the byte one past the declared
end is 0x80. -/
def c1OracleB : Nat → Nat := fun i => if i < 2 then listOracle [0x02, 0x00] i else 0x80

/-- C1: the claim that no ASN.1 primitive decoder ever reads a byte at or
past the declared end of its input is violated by the code: on the two-byte
input `02 00` with declared length 2 (a zero-length INTEGER body),
`getAsnInteger` evaluates the sign test `*p & 0x80` at offset 2 = len.  The
two oracles below agree on every byte below the declared length 2, yet the
decoder returns `PS_SUCCESS` with value 0 on one and `PS_SUCCESS` with value
-1 on the other, so the result depends on the out-of-bounds byte. -/
theorem c1_getAsnInteger_reads_past_end :
    (c1OracleA 0 = c1OracleB 0 ∧ c1OracleA 1 = c1OracleB 1) ∧
    getAsnInteger c1OracleA 0 2 = .ok 2 0 ∧
    getAsnInteger c1OracleB 0 2 = .ok 2 (-1) ∧
    (AsnIntResult.ok 2 0 ≠ AsnIntResult.ok 2 (-1)) := by
  decide

/-- C7: the eight input bytes `30 06 02 01 05 02 01 FA`. -/
def c7bytes : List Nat := [0x30, 0x06, 0x02, 0x01, 0x05, 0x02, 0x01, 0xFA]

/-- C7: byte oracle for the scenario. -/
def c7d : Nat → Nat := listOracle c7bytes

/-- C7: the full parsing scenario: wrap the 8 bytes in a parse buffer, read
the SEQUENCE tag into a child parse buffer, decode two INTEGERs from the
child's span (advancing its read cursor), finish the child (which advances
the outer cursor), then finish the outer buffer.  Returns
`(value1, value2, child finish rc, outer finish rc,
outer read cursor after child finish, child err, outer err)`. -/
def c7scenario : Int × Int × Int × Int × Nat × Nat × Nat :=
  let pb0 := psParseBufFromStaticData true 0 8
  let r := psParseBufReadTagSub c7d pb0 0x30
  let pb1 := r.2.1
  let content0 := r.2.2
  match getAsnInteger c7d content0.buf.start (content0.buf.stop - content0.buf.start) with
  | .err rc => (rc, 0, 0, 0, 0, 1, 1)
  | .ok p1 v1 =>
    let content1 : psParseBufS := ⟨⟨content0.buf.buf, p1, content0.buf.stop, content0.buf.size⟩, content0.err⟩
    match getAsnInteger c7d content1.buf.start (content1.buf.stop - content1.buf.start) with
    | .err rc => (v1, rc, 0, 0, 0, 1, 1)
    | .ok p2 v2 =>
      let content2 : psParseBufS := ⟨⟨content1.buf.buf, p2, content1.buf.stop, content1.buf.size⟩, content1.err⟩
      let f1 := psParseBufFinish content2 true pb1
      let pb2 := f1.2
      let f2 := psParseBufFinish pb2 false pb2
      (v1, v2, f1.1, f2.1, pb2.buf.start, content2.err, pb2.err)

/-- C7: parsing `30 06 02 01 05 02 01 FA` as a SEQUENCE yields the INTEGER
values 5 and -6, both parse buffers finish with error count zero (and result
code `PS_SUCCESS`), and the outer read cursor ends exactly at byte
offset 8. -/
theorem c7_concrete_scenario :
    c7scenario = (5, -6, PS_SUCCESS, PS_SUCCESS, 8, 0, 0) := by
  decide

/-- Growing never lowers the sticky error counter. -/
theorem dynGrow_err_le (growMin : Nat) (allocOk : Bool) (db : DynBufRoot) (h t : Nat) :
    db.err ≤ (psDynBufGrow growMin allocOk db h t).2.err := by
  unfold psDynBufGrow
  split_ifs <;> simp <;> omega

/-- Appending never lowers the sticky error counter. -/
theorem dynAppendSize_err_le (growMin : Nat) (allocOk : Bool) (db : DynBufRoot) (sz : Nat) :
    db.err ≤ (psDynBufAppendSize growMin allocOk db sz).2.err := by
  have hg := dynGrow_err_le growMin allocOk db 0 sz
  rcases hgr : psDynBufGrow growMin allocOk db 0 sz with ⟨ok, db2⟩
  rw [hgr] at hg
  simp only [psDynBufAppendSize, hgr]
  cases ok <;> split_ifs <;> simp_all

/-- Prepending never lowers the sticky error counter. -/
theorem dynPrependSize_err_le (growMin : Nat) (allocOk : Bool) (db : DynBufRoot) (sz : Nat) :
    db.err ≤ (psDynBufPrependSize growMin allocOk db sz).2.err := by
  have hg := dynGrow_err_le growMin allocOk db sz 0
  rcases hgr : psDynBufGrow growMin allocOk db sz 0 with ⟨ok, db2⟩
  rw [hgr] at hg
  simp only [psDynBufPrependSize, hgr]
  cases ok <;> split_ifs <;> simp_all

/-- C2 counterexample: a Dynamic Buffer with sticky error counter 1 but 10
bytes of tail room.  `psDynBufAppendSize` tries the `psBufAppendSize` fast
path before ever consulting the error counter, so the append succeeds: it
returns a non-NULL location (modelled `true`) and moves the write cursor,
contradicting the claim that every write on an errored buffer is a no-op
returning NULL. -/
theorem c2_counterexample :
    (psDynBufAppendSize 64 true ⟨0, [], 10, 1⟩ 5).1 = true ∧
    (psDynBufAppendSize 64 true ⟨0, [], 10, 1⟩ 5).2 ≠ ⟨0, [], 10, 1⟩ := by
  decide

/-- C2 (amended): for a Dynamic Buffer whose sticky error counter is
non-zero, `psDynBufGrow` is a no-op returning NULL, so any write that cannot
be satisfied from the existing room (`psDynBufAppendSize` with insufficient
tail room, `psDynBufPrependSize` with insufficient head room) is a no-op
that leaves the buffer unchanged and returns NULL — but a write that fits in
the existing room still succeeds and mutates the buffer despite the error.
Moreover no write operation ever lowers the counter; only full teardown
(`psDynBufUninit`) resets it to zero. -/
theorem c2_amended (growMin : Nat) (allocOk : Bool) (db : DynBufRoot)
    (h t sz ch : Nat) (st : SubBufState) (herr : db.err ≠ 0) :
    psDynBufGrow growMin allocOk db h t = (false, db) ∧
    (db.tailroom < sz → psDynBufAppendSize growMin allocOk db sz = (false, db)) ∧
    (db.headroom < sz → psDynBufPrependSize growMin allocOk db sz = (false, db)) ∧
    db.err ≤ (psDynBufAppendSize growMin allocOk db sz).2.err ∧
    db.err ≤ (psDynBufPrependSize growMin allocOk db sz).2.err ∧
    db.err ≤ (psDynBufAppendUtf8 growMin allocOk db ch).2.err ∧
    db.err ≤ (psDynBufGrow growMin allocOk db h t).2.err ∧
    db.err ≤ (psDynBufSubInit growMin allocOk db sz).2.master.err ∧
    st.master.err ≤ (psDynBufSubFinish st).2.err ∧
    (psDynBufUninit db).err = 0 := by
  have hgrow : psDynBufGrow growMin allocOk db h t = (false, db) := by
    unfold psDynBufGrow
    rw [if_pos herr]
  have hgrow2 : psDynBufGrow growMin allocOk db 0 sz = (false, db) := by
    unfold psDynBufGrow
    rw [if_pos herr]
  have hgrow3 : psDynBufGrow growMin allocOk db sz 0 = (false, db) := by
    unfold psDynBufGrow
    rw [if_pos herr]
  refine ⟨hgrow, ?_, ?_, dynAppendSize_err_le _ _ _ _, dynPrependSize_err_le _ _ _ _,
    ?_, dynGrow_err_le _ _ _ _ _, ?_, ?_, rfl⟩
  · intro hroom
    unfold psDynBufAppendSize
    rw [if_neg (by omega), hgrow2]
    simp
  · intro hroom
    unfold psDynBufPrependSize
    rw [if_neg (by omega), hgrow3]
    simp
  · unfold psDynBufAppendUtf8
    have h1 := dynAppendSize_err_le growMin allocOk db 1
    have h2 := dynAppendSize_err_le growMin allocOk db 2
    have h3 := dynAppendSize_err_le growMin allocOk db 3
    have h4 := dynAppendSize_err_le growMin allocOk db 4
    split_ifs <;> simp_all <;> split_ifs <;> simp_all
  · have h1 := dynAppendSize_err_le growMin allocOk db sz
    rcases hA : psDynBufAppendSize growMin allocOk db sz with ⟨ok, db2⟩
    rw [hA] at h1
    simp only [psDynBufSubInit, hA]
    cases ok <;> simp_all <;> omega
  · unfold psDynBufSubFinish
    split_ifs <;> simp <;> omega

/-- C2 witness: a concrete errored buffer on which the amended theorem
applies; the grow no-op at that buffer. -/
theorem c2_amended_witness :
    (⟨0, [], 10, 1⟩ : DynBufRoot).err ≠ 0 ∧
    psDynBufGrow 64 true ⟨0, [], 10, 1⟩ 0 0 = (false, ⟨0, [], 10, 1⟩) :=
  ⟨by decide,
    (c2_amended 64 true ⟨0, [], 10, 1⟩ 0 0 20 0 ⟨⟨0, [], 0, 0⟩, 0, 0, 0, 0, 0⟩
      (by decide)).1⟩

/-- C8: every modelled Fixed Buffer operation preserves the invariant
`origin ≤ readStart ≤ writeEnd ≤ origin + capacity` (and the initializers
establish it). -/
theorem c8_psBuf_invariant (b : psBufS) (sz origin capacity a l : Nat)
    (allocOk dataPresent : Bool) (h : psBufInvariant b) :
    psBufInvariant (psBufInit origin capacity allocOk) ∧
    psBufInvariant (psBufAppendSize b sz).2 ∧
    psBufInvariant (psBufReservePrepend b sz) ∧
    psBufInvariant (psBufPrependSize b sz).2 ∧
    psBufInvariant (psBufFromStaticData dataPresent a l).2 ∧
    psBufInvariant (psBufUninit b) := by
  obtain ⟨h1, h2, h3⟩ := h
  refine ⟨?_, ?_, ?_, ?_, ?_, ?_⟩ <;>
    simp only [psBufInvariant, psBufInit, psBufAppendSize, psBufReservePrepend,
      psBufPrependSize, psBufFromStaticData, psBufUninit] <;>
    (try split_ifs) <;> (try simp_all) <;> omega

/-- C8 witness: the invariant preservation applied to a concrete buffer
state. -/
theorem c8_psBuf_invariant_witness :
    psBufInvariant (⟨0, 2, 5, 10⟩ : psBufS) ∧
    psBufInvariant (psBufAppendSize ⟨0, 2, 5, 10⟩ 3).2 :=
  ⟨by simp [psBufInvariant],
    (c8_psBuf_invariant ⟨0, 2, 5, 10⟩ 3 0 4 7 9 true true (by simp [psBufInvariant])).2.1⟩

/-- C3 counterexample oracle: tag 0x30, long-form length `84 40 00 00 00`
declaring a content length of exactly 2^30 bytes. -/
def c3d : Nat → Nat := fun i =>
  if i = 0 then 0x30 else if i = 1 then 0x84 else if i = 2 then 0x40 else 0

/-- C3 counterexample parse buffer: 2^30 + 6 bytes available. -/
def c3pb : psParseBufS := ⟨⟨0, 0, 0x40000006, 0x40000006⟩, 0⟩

/-- C3 counterexample: a header declaring a content length of exactly
2^30 bytes (which exceeds 2^30 - 1) is accepted: `psParseBufGetTagLen`
returns the non-zero total 2^30 + 6, not 0, because the source rejects only
lengths strictly greater than `PS_PARSE_MAXIMUM_TAG_CONTENT = 0x40000000`. -/
theorem c3_counterexample :
    psParseBufGetTagLen c3d c3pb 0x30 = (0x40000006, 6) ∧
    (0x40000000 - 1 : Nat) < 0x40000006 - 6 := by
  decide

/-- Bound on the trailing section of `psParseBufGetTagLen`: the content part
of whatever it returns never exceeds the 1 GiB ceiling. -/
theorem tagLenFinish_bound (d : Nat → Nat) (ptr bytes len_at lenlen hdr : Nat) :
    (psParseTagLenFinish d ptr bytes len_at lenlen hdr).1 -
      (psParseTagLenFinish d ptr bytes len_at lenlen hdr).2 ≤ 0x40000000 := by
  simp only [psParseTagLenFinish]
  split_ifs <;> simp <;> omega

set_option maxRecDepth 8192 in
/-- C3 (amended): `psParseBufGetTagLen` succeeds (returns a non-zero total
length) only when the decoded content length is at most 2^30 (not 2^30 - 1):
on success the total minus the header length, which is the content length,
is at most 0x40000000; every header whose content length exceeds 2^30 is
rejected with 0. -/
theorem c3_amended (d : Nat → Nat) (pb : psParseBufS) (tag : Nat)
    (h : (psParseBufGetTagLen d pb tag).1 ≠ 0) :
    (psParseBufGetTagLen d pb tag).1 - (psParseBufGetTagLen d pb tag).2 ≤ 0x40000000 := by
  clear h
  simp only [psParseBufGetTagLen]
  split_ifs <;> first | exact tagLenFinish_bound _ _ _ _ _ _ | simp

/-- C3 witness oracle: a small accepted header `30 01 AA`. -/
def c3wd : Nat → Nat := listOracle [0x30, 0x01, 0xAA]

/-- C3 witness: the amended bound applied at a concrete accepted input. -/
theorem c3_amended_witness :
    (psParseBufGetTagLen c3wd ⟨⟨0, 0, 3, 3⟩, 0⟩ 0x30).1 ≠ 0 ∧
    (psParseBufGetTagLen c3wd ⟨⟨0, 0, 3, 3⟩, 0⟩ 0x30).1 -
      (psParseBufGetTagLen c3wd ⟨⟨0, 0, 3, 3⟩, 0⟩ 0x30).2 ≤ 0x40000000 :=
  ⟨by decide, c3_amended c3wd ⟨⟨0, 0, 3, 3⟩, 0⟩ 0x30 (by decide)⟩

set_option maxRecDepth 8192 in
set_option maxHeartbeats 1000000 in
/-- C4: `psParseBufGetTagLen` enforces minimal DER length encodings.  First
part: every non-minimal long form — a single length byte below 0x80 after
the 0x81 marker, or a leading zero length byte after the 0x82/0x83/0x84
markers — is rejected with 0.  Second part: whenever the call succeeds on a
long-form header, the length field is the shortest valid DER form (after
0x81 the byte is at least 0x80; after the longer markers the leading byte is
non-zero). -/
theorem c4_minimal_length_encoding (d : Nat → Nat) (pb : psParseBufS) (tag : Nat) :
    (((byteAt d (pb.buf.start + 1) = 0x81 ∧ byteAt d (pb.buf.start + 2) < 0x80) ∨
      ((byteAt d (pb.buf.start + 1) = 0x82 ∨ byteAt d (pb.buf.start + 1) = 0x83 ∨
        byteAt d (pb.buf.start + 1) = 0x84) ∧ byteAt d (pb.buf.start + 2) = 0)) →
      psParseBufGetTagLen d pb tag = (0, 0)) ∧
    ((psParseBufGetTagLen d pb tag).1 ≠ 0 → 0x80 ≤ byteAt d (pb.buf.start + 1) →
      (byteAt d (pb.buf.start + 1) = 0x81 → 0x80 ≤ byteAt d (pb.buf.start + 2)) ∧
      (byteAt d (pb.buf.start + 1) ≠ 0x81 → byteAt d (pb.buf.start + 2) ≠ 0)) := by
  constructor
  · intro hbad
    simp only [psParseBufGetTagLen]
    split_ifs <;> first | rfl | omega
  · intro hne h80
    simp only [psParseBufGetTagLen] at hne
    split_ifs at hne <;> first | (exact absurd rfl hne) | (constructor <;> intro <;> omega)

/-- C4 witness oracle: tag 0x30 with the non-minimal long form `81 7F`. -/
def c4d : Nat → Nat := fun i =>
  if i = 0 then 0x30 else if i = 1 then 0x81 else if i = 2 then 0x7F else 0

/-- C4 witness: the rejection applied at a concrete non-minimal encoding
(0x81 followed by a length byte below 0x80), with plenty of bytes
available. -/
theorem c4_minimal_length_encoding_witness :
    psParseBufGetTagLen c4d ⟨⟨0, 0, 200, 200⟩, 0⟩ 0x30 = (0, 0) :=
  (c4_minimal_length_encoding c4d ⟨⟨0, 0, 200, 200⟩, 0⟩ 0x30).1 (by decide)

/-- Masking with 0xFFFF is the identity below 2^16. -/
theorem and16_eq (x : Nat) (h : x < 65536) : x &&& 65535 = x := by
  have h2 := Nat.and_pow_two_sub_one_eq_mod x 16
  norm_num at h2
  rw [h2]
  omega

/-- With `indefinite = 0`, `getAsnLength32` returns either `PS_SUCCESS` or a
negative failure code (never `ASN_UNKNOWN_LEN`). -/
theorem len32_rc_cases (d : Nat → Nat) (pp size : Nat) :
    (getAsnLength32 d pp size 0).rc = PS_SUCCESS ∨ (getAsnLength32 d pp size 0).rc < 0 := by
  simp only [getAsnLength32, asnLenFinish]
  norm_num
  split_ifs <;> simp [PS_SUCCESS, PS_LIMIT_FAIL]

/-- On success with `indefinite = 0`, the decoded length fits in the bytes
remaining after the length field, and the pointer advances but stays within
the declared input. -/
theorem len32_success_bounds (d : Nat → Nat) (pp size : Nat)
    (h : (getAsnLength32 d pp size 0).rc = PS_SUCCESS) :
    (getAsnLength32 d pp size 0).len + 1 ≤ size ∧
    pp < (getAsnLength32 d pp size 0).p ∧
    (getAsnLength32 d pp size 0).p ≤ pp + size := by
  simp only [getAsnLength32, asnLenFinish] at h ⊢
  norm_num at h ⊢
  split_ifs at h ⊢ <;> dsimp only [PS_SUCCESS, PS_LIMIT_FAIL] at h ⊢ <;> omega

/-- Result-code dichotomy for `getAsnSequence32` with `indefinite = 0`. -/
theorem seq32_rc_cases (d : Nat → Nat) (pp size : Nat) :
    (getAsnSequence32 d pp size 0).rc = PS_SUCCESS ∨ (getAsnSequence32 d pp size 0).rc < 0 := by
  rcases len32_rc_cases d (pp + 1) (size - 1) with h | h <;>
    (simp only [getAsnSequence32]
     split_ifs <;>
       dsimp only [PS_SUCCESS, PS_PARSE_FAIL, PS_LIMIT_FAIL] at h ⊢ <;> omega)

/-- On success, `getAsnSequence32` reports exactly the 32-bit decoded length,
which is bounded by the (16-bit) size argument. -/
theorem seq32_success_len (d : Nat → Nat) (pp size : Nat)
    (h : (getAsnSequence32 d pp size 0).rc = PS_SUCCESS) :
    (getAsnSequence32 d pp size 0).len = some ((getAsnLength32 d (pp + 1) (size - 1) 0).len) ∧
    (getAsnLength32 d (pp + 1) (size - 1) 0).len + 2 ≤ size := by
  rcases len32_rc_cases d (pp + 1) (size - 1) with h0 | hneg
  · have hb := len32_success_bounds d (pp + 1) (size - 1) h0
    simp only [getAsnSequence32] at h ⊢
    split_ifs at h ⊢ <;>
      dsimp only [PS_SUCCESS, PS_PARSE_FAIL, PS_LIMIT_FAIL] at h h0 ⊢ <;>
      first | omega | (refine ⟨rfl, ?_⟩; omega)
  · simp only [getAsnSequence32] at h
    split_ifs at h <;>
      dsimp only [PS_SUCCESS, PS_PARSE_FAIL, PS_LIMIT_FAIL] at h hneg <;> omega

/-- Result-code dichotomy for `getAsnSet32` with `indefinite = 0`. -/
theorem set32_rc_cases (d : Nat → Nat) (pp size : Nat) :
    (getAsnSet32 d pp size 0).rc = PS_SUCCESS ∨ (getAsnSet32 d pp size 0).rc < 0 := by
  rcases len32_rc_cases d (pp + 1) (size - 1) with h | h <;>
    (simp only [getAsnSet32]
     split_ifs <;>
       dsimp only [PS_SUCCESS, PS_PARSE_FAIL, PS_LIMIT_FAIL] at h ⊢ <;> omega)

/-- On success, `getAsnSet32` reports exactly the 32-bit decoded length,
which is bounded by the (16-bit) size argument. -/
theorem set32_success_len (d : Nat → Nat) (pp size : Nat)
    (h : (getAsnSet32 d pp size 0).rc = PS_SUCCESS) :
    (getAsnSet32 d pp size 0).len = some ((getAsnLength32 d (pp + 1) (size - 1) 0).len) ∧
    (getAsnLength32 d (pp + 1) (size - 1) 0).len + 2 ≤ size := by
  rcases len32_rc_cases d (pp + 1) (size - 1) with h0 | hneg
  · have hb := len32_success_bounds d (pp + 1) (size - 1) h0
    simp only [getAsnSet32] at h ⊢
    split_ifs at h ⊢ <;>
      dsimp only [PS_SUCCESS, PS_PARSE_FAIL, PS_LIMIT_FAIL] at h h0 ⊢ <;>
      first | omega | (refine ⟨rfl, ?_⟩; omega)
  · simp only [getAsnSet32] at h
    split_ifs at h <;>
      dsimp only [PS_SUCCESS, PS_PARSE_FAIL, PS_LIMIT_FAIL] at h hneg <;> omega

/-- C9 counterexample oracle: a length field `83 01 00 00` declaring a
content length of 65536. -/
def c9d : Nat → Nat := fun i => if i = 0 then 0x83 else if i = 1 then 0x01 else 0

/-- C9 counterexample: the header `83 01 00 00` declares a content length of
65536 (first conjunct: the 32-bit decoder accepts it when 100000 bytes are
available).  The 16-bit wrapper `getAsnLength`, whose `size` argument is a
`uint16_t` and therefore at most 65535, fails with `PS_LIMIT_FAIL` on this
input even at the maximal size — it does not return `PS_SUCCESS` with the
truncated length 65536 mod 2^16 = 0 that the claim asserts. -/
theorem c9_counterexample :
    getAsnLength32 c9d 0 100000 0 = ⟨PS_SUCCESS, 4, 65536⟩ ∧
    getAsnLength c9d 0 65535 = ⟨PS_LIMIT_FAIL, 0, none⟩ ∧
    PS_LIMIT_FAIL ≠ PS_SUCCESS := by
  decide

/-- C9 (amended): the 16-bit wrappers do mask the decoded 32-bit length with
0xFFFF, but the masking never truncates: whenever a wrapper returns
`PS_SUCCESS` with a 16-bit `size` argument, the 32-bit decoded length is
itself below 2^16 and is reported exactly.  For declared content lengths of
65536 or more, the strict availability check inside `getAsnLength32` (whose
`size` is at most 65535) always fails first, so the wrappers return a
negative error code, never `PS_SUCCESS` with a truncated length. -/
theorem c9_amended (d : Nat → Nat) (pp size : Nat) (hsize : size < 0x10000) :
    ((getAsnLength d pp size).rc = PS_SUCCESS →
      (getAsnLength32 d pp size 0).len < 0x10000 ∧
      (getAsnLength d pp size).len = some ((getAsnLength32 d pp size 0).len)) ∧
    ((getAsnSequence d pp size).rc = PS_SUCCESS →
      (getAsnLength32 d (pp + 1) (size - 1) 0).len < 0x10000 ∧
      (getAsnSequence d pp size).len = some ((getAsnLength32 d (pp + 1) (size - 1) 0).len)) ∧
    ((getAsnSet d pp size).rc = PS_SUCCESS →
      (getAsnLength32 d (pp + 1) (size - 1) 0).len < 0x10000 ∧
      (getAsnSet d pp size).len = some ((getAsnLength32 d (pp + 1) (size - 1) 0).len)) := by
  refine ⟨?_, ?_, ?_⟩
  · intro h
    rcases len32_rc_cases d pp size with h0 | hneg
    · have hb := len32_success_bounds d pp size h0
      have hlt : (getAsnLength32 d pp size 0).len < 65536 := by omega
      have hnn : ¬ (getAsnLength32 d pp size 0).rc < 0 := by
        rw [h0]; simp [PS_SUCCESS]
      refine ⟨hlt, ?_⟩
      simp only [getAsnLength]
      rw [if_neg hnn]
      dsimp only
      rw [and16_eq _ hlt]
    · exfalso
      simp only [getAsnLength] at h
      rw [if_pos hneg] at h
      dsimp only [PS_SUCCESS] at h
      omega
  · intro h
    rcases seq32_rc_cases d pp size with h0 | hneg
    · have hsl := seq32_success_len d pp size h0
      have hlt : (getAsnLength32 d (pp + 1) (size - 1) 0).len < 65536 := by omega
      have hnn : ¬ (getAsnSequence32 d pp size 0).rc < 0 := by
        rw [h0]; simp [PS_SUCCESS]
      refine ⟨hlt, ?_⟩
      simp only [getAsnSequence]
      rw [if_neg hnn]
      dsimp only
      rw [hsl.1]
      simp [and16_eq _ hlt]
    · exfalso
      simp only [getAsnSequence] at h
      rw [if_pos hneg] at h
      dsimp only [PS_SUCCESS] at h
      omega
  · intro h
    rcases set32_rc_cases d pp size with h0 | hneg
    · have hsl := set32_success_len d pp size h0
      have hlt : (getAsnLength32 d (pp + 1) (size - 1) 0).len < 65536 := by omega
      have hnn : ¬ (getAsnSet32 d pp size 0).rc < 0 := by
        rw [h0]; simp [PS_SUCCESS]
      refine ⟨hlt, ?_⟩
      simp only [getAsnSet]
      rw [if_neg hnn]
      dsimp only
      rw [hsl.1]
      simp [and16_eq _ hlt]
    · exfalso
      simp only [getAsnSet] at h
      rw [if_pos hneg] at h
      dsimp only [PS_SUCCESS] at h
      omega

/-- C9 witness: the amended no-truncation statement applied to a concrete
successful decode (`getAsnLength` on the short-form length byte 0x02 with
3 bytes available). -/
theorem c9_amended_witness :
    (getAsnLength (listOracle [0x02, 0, 0]) 0 3).rc = PS_SUCCESS ∧
    (getAsnLength (listOracle [0x02, 0, 0]) 0 3).len =
      some ((getAsnLength32 (listOracle [0x02, 0, 0]) 0 3 0).len) :=
  ⟨by decide,
    ((c9_amended (listOracle [0x02, 0, 0]) 0 3 (by norm_num)).1 (by decide)).2⟩

/-- Congruence for `getAsnLength32`: it reads memory only at offsets at or
after its input pointer. -/
theorem len32_congr (d1 d2 : Nat → Nat) (pp size ind : Nat)
    (h : ∀ i, pp ≤ i → d1 i = d2 i) :
    getAsnLength32 d1 pp size ind = getAsnLength32 d2 pp size ind := by
  have e0 : byteAt d1 pp = byteAt d2 pp := by simp [byteAt, h pp le_rfl]
  have e1 : byteAt d1 (pp + 1) = byteAt d2 (pp + 1) := by simp [byteAt, h (pp + 1) (by omega)]
  have e2 : byteAt d1 (pp + 1 + 1) = byteAt d2 (pp + 1 + 1) := by
    simp [byteAt, h (pp + 1 + 1) (by omega)]
  have e3 : byteAt d1 (pp + 1 + 2) = byteAt d2 (pp + 1 + 2) := by
    simp [byteAt, h (pp + 1 + 2) (by omega)]
  have e4 : byteAt d1 (pp + 1 + 3) = byteAt d2 (pp + 1 + 3) := by
    simp [byteAt, h (pp + 1 + 3) (by omega)]
  simp only [getAsnLength32, e0, e1, e2, e3, e4]

/-- Congruence for the plain accumulation loop: it reads memory only at
offsets at or after its pointer argument. -/
theorem asnAccPos_congr (d1 d2 : Nat → Nat) :
    ∀ (n p acc : Nat), (∀ i, p ≤ i → d1 i = d2 i) →
      asnAccPos d1 p n acc = asnAccPos d2 p n acc := by
  intro n
  induction n with
  | zero => intro p acc h; rfl
  | succ m ih =>
    intro p acc h
    simp only [asnAccPos]
    rw [show byteAt d1 p = byteAt d2 p from by simp [byteAt, h p le_rfl]]
    exact ih (p + 1) _ (fun i hi => h i (by omega))

/-- Congruence for the complementing accumulation loop. -/
theorem asnAccNeg_congr (d1 d2 : Nat → Nat) :
    ∀ (n p acc : Nat), (∀ i, p ≤ i → d1 i = d2 i) →
      asnAccNeg d1 p n acc = asnAccNeg d2 p n acc := by
  intro n
  induction n with
  | zero => intro p acc h; rfl
  | succ m ih =>
    intro p acc h
    simp only [asnAccNeg]
    rw [show byteAt d1 p = byteAt d2 p from by simp [byteAt, h p le_rfl]]
    exact ih (p + 1) _ (fun i hi => h i (by omega))

/-- C10: `getAsnEnumerated` and `getAsnInteger` are equivalent up to the
required tag byte: on any input whose first byte is the ENUMERATED tag 0x0A,
`getAsnEnumerated` returns exactly the same result (same code, same decoded
value, same pointer advance) as `getAsnInteger` on the identical input with
the first byte replaced by the INTEGER tag 0x02. -/
theorem c10_enumerated_integer_equiv (d : Nat → Nat) (pp len : Nat)
    (h : byteAt d pp = ASN_ENUMERATED) :
    getAsnEnumerated d pp len =
      getAsnInteger (fun i => if i = pp then ASN_INTEGER else d i) pp len := by
  have hag : ∀ i, pp + 1 ≤ i → (fun i => if i = pp then ASN_INTEGER else d i) i = d i := by
    intro i hi
    simp only []
    rw [if_neg (by omega)]
  have ht2 : byteAt (fun i => if i = pp then ASN_INTEGER else d i) pp = ASN_INTEGER := by
    simp [byteAt, ASN_INTEGER]
  have hL : getAsnLength32 (fun i => if i = pp then ASN_INTEGER else d i) (pp + 1) (len - 1) 0 =
      getAsnLength32 d (pp + 1) (len - 1) 0 :=
    len32_congr _ _ _ _ _ (fun i hi => hag i hi)
  have htagL : ¬ (byteAt d pp ≠ ASN_ENUMERATED) := by simp [h]
  have htagR : ¬ (byteAt (fun i => if i = pp then ASN_INTEGER else d i) pp ≠ ASN_INTEGER) := by
    simp [ht2]
  simp only [getAsnEnumerated, getAsnInteger]
  by_cases hl : len < 1
  · rw [if_pos hl, if_pos hl]
  · rw [if_neg hl, if_neg hl, if_neg htagL, if_neg htagR, hL]
    rcases len32_rc_cases d (pp + 1) (len - 1) with h0 | hneg
    · have hb := len32_success_bounds d (pp + 1) (len - 1) h0
      have hple : pp + 1 ≤ (getAsnLength32 d (pp + 1) (len - 1) 0).p := by omega
      have hsign : byteAt (fun i => if i = pp then ASN_INTEGER else d i)
          (getAsnLength32 d (pp + 1) (len - 1) 0).p =
          byteAt d (getAsnLength32 d (pp + 1) (len - 1) 0).p := by
        simp only [byteAt, hag _ hple]
      have hacc1 : asnAccPos (fun i => if i = pp then ASN_INTEGER else d i)
          (getAsnLength32 d (pp + 1) (len - 1) 0).p
          (getAsnLength32 d (pp + 1) (len - 1) 0).len 0 =
          asnAccPos d (getAsnLength32 d (pp + 1) (len - 1) 0).p
          (getAsnLength32 d (pp + 1) (len - 1) 0).len 0 :=
        asnAccPos_congr _ _ _ _ _ (fun i hi => hag i (by omega))
      have hacc2 : asnAccNeg (fun i => if i = pp then ASN_INTEGER else d i)
          (getAsnLength32 d (pp + 1) (len - 1) 0).p
          (getAsnLength32 d (pp + 1) (len - 1) 0).len 0 =
          asnAccNeg d (getAsnLength32 d (pp + 1) (len - 1) 0).p
          (getAsnLength32 d (pp + 1) (len - 1) 0).len 0 :=
        asnAccNeg_congr _ _ _ _ _ (fun i hi => hag i (by omega))
      rw [hsign, hacc1, hacc2]
    · rw [if_pos hneg, if_pos hneg]

/-- C10 witness: the equivalence applied to the concrete ENUMERATED encoding
`0A 01 05`. -/
theorem c10_enumerated_integer_equiv_witness :
    getAsnEnumerated (listOracle [0x0A, 0x01, 0x05]) 0 3 =
      getAsnInteger (fun i => if i = 0 then ASN_INTEGER else listOracle [0x0A, 0x01, 0x05] i)
        0 3 :=
  c10_enumerated_integer_equiv (listOracle [0x0A, 0x01, 0x05]) 0 3 (by decide)


/-- Evaluation of `getAsnLength32` on a short-form length byte. -/
theorem len32_short (d : Nat → Nat) (pp size : Nat) (h1 : 1 ≤ size)
    (hb : byteAt d pp < 128) (h2 : byteAt d pp ≤ size - 1) :
    getAsnLength32 d pp size 0 = ⟨PS_SUCCESS, pp + 1, byteAt d pp⟩ := by
  have ha7 := and127_eq (byteAt d pp) (byteAt_lt d pp)
  have ha8 := and128_eq (byteAt d pp) (byteAt_lt d pp)
  simp only [getAsnLength32, asnLenFinish, ha7, ha8, if_pos hb, Nat.mod_eq_of_lt hb]
  norm_num
  rw [if_neg (by omega), if_neg (by omega)]

/-- Values below 2^31 reinterpret to themselves. -/
theorem toInt32_small (u : Nat) (h : u < 0x80000000) : toInt32 u = (u : Int) := by
  simp [toInt32, Nat.mod_eq_of_lt (show u < 0x100000000 by omega), h]

/-- The increment, unsigned negation and signed reinterpretation sequence of
the negative branch of the integer decoders computes `-(acc) - 1`. -/
theorem negDecode (acc : Nat) (ha : acc < 0x80000000) :
    toInt32 (neg32 ((acc + 1) % 0x100000000)) = -(acc : Int) - 1 := by
  simp only [toInt32, neg32]
  rw [Nat.mod_eq_of_lt (show acc + 1 < 0x100000000 by omega)]
  rw [Nat.mod_eq_of_lt (show acc + 1 < 0x100000000 by omega)]
  rw [Nat.mod_eq_of_lt (show 0x100000000 - (acc + 1) < 0x100000000 by omega)]
  rw [Nat.mod_eq_of_lt (show 0x100000000 - (acc + 1) < 0x100000000 by omega)]
  rw [if_neg (by omega)]
  omega

theorem accPos1 (d : Nat → Nat) (p : Nat) : asnAccPos d p 1 0 = byteAt d p := by
  have h0 := byteAt_lt d p
  simp only [asnAccPos, Nat.zero_shiftLeft, Nat.zero_or]
  exact Nat.mod_eq_of_lt (by omega)

theorem accPos2 (d : Nat → Nat) (p : Nat) :
    asnAccPos d p 2 0 = byteAt d p * 256 + byteAt d (p + 1) := by
  have h0 := byteAt_lt d p
  have h1 := byteAt_lt d (p + 1)
  simp only [asnAccPos, Nat.zero_shiftLeft, Nat.zero_or]
  rw [Nat.mod_eq_of_lt (show byteAt d p < 0x100000000 by omega), shiftOr_eq _ _ h1,
    Nat.mod_eq_of_lt (show byteAt d p * 256 + byteAt d (p + 1) < 0x100000000 by omega)]

theorem accPos3 (d : Nat → Nat) (p : Nat) :
    asnAccPos d p 3 0 =
      (byteAt d p * 256 + byteAt d (p + 1)) * 256 + byteAt d (p + 1 + 1) := by
  have h0 := byteAt_lt d p
  have h1 := byteAt_lt d (p + 1)
  have h2 := byteAt_lt d (p + 1 + 1)
  simp only [asnAccPos, Nat.zero_shiftLeft, Nat.zero_or]
  rw [Nat.mod_eq_of_lt (show byteAt d p < 0x100000000 by omega), shiftOr_eq _ _ h1,
    Nat.mod_eq_of_lt (show byteAt d p * 256 + byteAt d (p + 1) < 0x100000000 by omega),
    shiftOr_eq _ _ h2,
    Nat.mod_eq_of_lt (show (byteAt d p * 256 + byteAt d (p + 1)) * 256 +
      byteAt d (p + 1 + 1) < 0x100000000 by omega)]

theorem accPos4 (d : Nat → Nat) (p : Nat) :
    asnAccPos d p 4 0 =
      ((byteAt d p * 256 + byteAt d (p + 1)) * 256 + byteAt d (p + 1 + 1)) * 256 +
        byteAt d (p + 1 + 1 + 1) := by
  have h0 := byteAt_lt d p
  have h1 := byteAt_lt d (p + 1)
  have h2 := byteAt_lt d (p + 1 + 1)
  have h3 := byteAt_lt d (p + 1 + 1 + 1)
  simp only [asnAccPos, Nat.zero_shiftLeft, Nat.zero_or]
  rw [Nat.mod_eq_of_lt (show byteAt d p < 0x100000000 by omega), shiftOr_eq _ _ h1,
    Nat.mod_eq_of_lt (show byteAt d p * 256 + byteAt d (p + 1) < 0x100000000 by omega),
    shiftOr_eq _ _ h2,
    Nat.mod_eq_of_lt (show (byteAt d p * 256 + byteAt d (p + 1)) * 256 +
      byteAt d (p + 1 + 1) < 0x100000000 by omega),
    shiftOr_eq _ _ h3,
    Nat.mod_eq_of_lt (show ((byteAt d p * 256 + byteAt d (p + 1)) * 256 +
      byteAt d (p + 1 + 1)) * 256 + byteAt d (p + 1 + 1 + 1) < 0x100000000 by omega)]

theorem accNeg1 (d : Nat → Nat) (p : Nat) : asnAccNeg d p 1 0 = 255 - byteAt d p := by
  have h0 := byteAt_lt d p
  simp only [asnAccNeg, Nat.zero_shiftLeft, Nat.zero_or, xor255_eq _ h0]
  exact Nat.mod_eq_of_lt (by omega)

theorem accNeg2 (d : Nat → Nat) (p : Nat) :
    asnAccNeg d p 2 0 = (255 - byteAt d p) * 256 + (255 - byteAt d (p + 1)) := by
  have h0 := byteAt_lt d p
  have h1 := byteAt_lt d (p + 1)
  simp only [asnAccNeg, Nat.zero_shiftLeft, Nat.zero_or, xor255_eq _ h0, xor255_eq _ h1]
  rw [Nat.mod_eq_of_lt (show 255 - byteAt d p < 0x100000000 by omega),
    shiftOr_eq _ _ (show 255 - byteAt d (p + 1) < 256 by omega),
    Nat.mod_eq_of_lt (show (255 - byteAt d p) * 256 + (255 - byteAt d (p + 1)) <
      0x100000000 by omega)]

theorem accNeg3 (d : Nat → Nat) (p : Nat) :
    asnAccNeg d p 3 0 =
      ((255 - byteAt d p) * 256 + (255 - byteAt d (p + 1))) * 256 +
        (255 - byteAt d (p + 1 + 1)) := by
  have h0 := byteAt_lt d p
  have h1 := byteAt_lt d (p + 1)
  have h2 := byteAt_lt d (p + 1 + 1)
  simp only [asnAccNeg, Nat.zero_shiftLeft, Nat.zero_or, xor255_eq _ h0, xor255_eq _ h1,
    xor255_eq _ h2]
  rw [Nat.mod_eq_of_lt (show 255 - byteAt d p < 0x100000000 by omega),
    shiftOr_eq _ _ (show 255 - byteAt d (p + 1) < 256 by omega),
    Nat.mod_eq_of_lt (show (255 - byteAt d p) * 256 + (255 - byteAt d (p + 1)) <
      0x100000000 by omega),
    shiftOr_eq _ _ (show 255 - byteAt d (p + 1 + 1) < 256 by omega),
    Nat.mod_eq_of_lt (show ((255 - byteAt d p) * 256 + (255 - byteAt d (p + 1))) * 256 +
      (255 - byteAt d (p + 1 + 1)) < 0x100000000 by omega)]

theorem accNeg4 (d : Nat → Nat) (p : Nat) :
    asnAccNeg d p 4 0 =
      (((255 - byteAt d p) * 256 + (255 - byteAt d (p + 1))) * 256 +
        (255 - byteAt d (p + 1 + 1))) * 256 + (255 - byteAt d (p + 1 + 1 + 1)) := by
  have h0 := byteAt_lt d p
  have h1 := byteAt_lt d (p + 1)
  have h2 := byteAt_lt d (p + 1 + 1)
  have h3 := byteAt_lt d (p + 1 + 1 + 1)
  simp only [asnAccNeg, Nat.zero_shiftLeft, Nat.zero_or, xor255_eq _ h0, xor255_eq _ h1,
    xor255_eq _ h2, xor255_eq _ h3]
  rw [Nat.mod_eq_of_lt (show 255 - byteAt d p < 0x100000000 by omega),
    shiftOr_eq _ _ (show 255 - byteAt d (p + 1) < 256 by omega),
    Nat.mod_eq_of_lt (show (255 - byteAt d p) * 256 + (255 - byteAt d (p + 1)) <
      0x100000000 by omega),
    shiftOr_eq _ _ (show 255 - byteAt d (p + 1 + 1) < 256 by omega),
    Nat.mod_eq_of_lt (show ((255 - byteAt d p) * 256 + (255 - byteAt d (p + 1))) * 256 +
      (255 - byteAt d (p + 1 + 1)) < 0x100000000 by omega),
    shiftOr_eq _ _ (show 255 - byteAt d (p + 1 + 1 + 1) < 256 by omega),
    Nat.mod_eq_of_lt (show (((255 - byteAt d p) * 256 + (255 - byteAt d (p + 1))) * 256 +
      (255 - byteAt d (p + 1 + 1))) * 256 + (255 - byteAt d (p + 1 + 1 + 1)) <
      0x100000000 by omega)]


theorem c5pos1 (w : Nat) (hw : w < 128) (len : Nat) (hl : 3 ≤ len) :
    getAsnInteger (listOracle [2, 1, w]) 0 len = .ok 3 (w : Int) := by
  have htag : ¬ (byteAt (listOracle [2, 1, w]) 0 ≠ ASN_INTEGER) := by
    simp [byteAt, listOracle, ASN_INTEGER]
  have hb1 : byteAt (listOracle [2, 1, w]) 1 = 1 := rfl
  have hb2 : byteAt (listOracle [2, 1, w]) (1 + 1) = w := by
    simp [byteAt, listOracle, Nat.mod_eq_of_lt (show w < 256 by omega)]
  have hlen := len32_short (listOracle [2, 1, w]) 1 (len - 1) (by omega)
    (by rw [hb1]; omega) (by rw [hb1]; omega)
  rw [hb1] at hlen
  simp only [getAsnInteger]
  rw [if_neg (show ¬ len < 1 by omega), if_neg htag, hlen]
  dsimp only
  rw [if_neg (show ¬ (PS_SUCCESS < 0) by norm_num [PS_SUCCESS])]
  rw [if_neg (show ¬ (4 < 1 ∨ 0 + len - (1 + 1) < 1) by omega)]
  rw [hb2, and128_eq w (by omega), if_pos hw]
  rw [if_neg (show ¬ ((0 : Nat) ≠ 0) by norm_num)]
  rw [accPos1 (listOracle [2, 1, w]) (1 + 1), hb2, toInt32_small w (by omega)]

theorem c5neg1 (w : Nat) (h1 : 128 ≤ w) (h2 : w < 256) (len : Nat) (hl : 3 ≤ len) :
    getAsnInteger (listOracle [2, 1, w]) 0 len = .ok 3 ((w : Int) - 256) := by
  have htag : ¬ (byteAt (listOracle [2, 1, w]) 0 ≠ ASN_INTEGER) := by
    simp [byteAt, listOracle, ASN_INTEGER]
  have hb1 : byteAt (listOracle [2, 1, w]) 1 = 1 := rfl
  have hb2 : byteAt (listOracle [2, 1, w]) (1 + 1) = w := by
    simp [byteAt, listOracle, Nat.mod_eq_of_lt (show w < 256 by omega)]
  have hlen := len32_short (listOracle [2, 1, w]) 1 (len - 1) (by omega)
    (by rw [hb1]; omega) (by rw [hb1]; omega)
  rw [hb1] at hlen
  simp only [getAsnInteger]
  rw [if_neg (show ¬ len < 1 by omega), if_neg htag, hlen]
  dsimp only
  rw [if_neg (show ¬ (PS_SUCCESS < 0) by norm_num [PS_SUCCESS])]
  rw [if_neg (show ¬ (4 < 1 ∨ 0 + len - (1 + 1) < 1) by omega)]
  rw [hb2, and128_eq w (by omega), if_neg (show ¬ w < 128 by omega)]
  rw [if_pos (show (128 : Nat) ≠ 0 by norm_num)]
  rw [accNeg1 (listOracle [2, 1, w]) (1 + 1), hb2, negDecode (255 - w) (by omega)]
  congr 1 <;> omega


theorem c5pos2 (w : Nat) (hw : w < 32768) (len : Nat) (hl : 4 ≤ len) :
    getAsnInteger (listOracle [2, 2, w / 256, w % 256]) 0 len = .ok 4 (w : Int) := by
  have htag : ¬ (byteAt (listOracle [2, 2, w / 256, w % 256]) 0 ≠ ASN_INTEGER) := by
    simp [byteAt, listOracle, ASN_INTEGER]
  have hb1 : byteAt (listOracle [2, 2, w / 256, w % 256]) 1 = 2 := rfl
  have hc0 : byteAt (listOracle [2, 2, w / 256, w % 256]) (1 + 1) = w / 256 := by
    simp [byteAt, listOracle] <;> omega
  have hc1 : byteAt (listOracle [2, 2, w / 256, w % 256]) (1 + 1 + 1) = w % 256 := by
    simp [byteAt, listOracle] <;> omega
  have hlen := len32_short (listOracle [2, 2, w / 256, w % 256]) 1 (len - 1) (by omega)
    (by rw [hb1]; omega) (by rw [hb1]; omega)
  rw [hb1] at hlen
  simp only [getAsnInteger]
  rw [if_neg (show ¬ len < 1 by omega), if_neg htag, hlen]
  dsimp only
  rw [if_neg (show ¬ (PS_SUCCESS < 0) by norm_num [PS_SUCCESS])]
  rw [if_neg (show ¬ (4 < 2 ∨ 0 + len - (1 + 1) < 2) by omega)]
  rw [hc0, and128_eq (w / 256) (by omega), if_pos (show w / 256 < 128 by omega)]
  rw [if_neg (show ¬ ((0 : Nat) ≠ 0) by norm_num)]
  rw [accPos2 (listOracle [2, 2, w / 256, w % 256]) (1 + 1)]
  rw [hc0, hc1]
  rw [show (w / 256) * 256 + w % 256 = w by omega, toInt32_small w (by omega)]

theorem c5neg2 (w : Nat) (h1 : 32768 ≤ w) (h2 : w < 65536) (len : Nat) (hl : 4 ≤ len) :
    getAsnInteger (listOracle [2, 2, w / 256, w % 256]) 0 len = .ok 4 ((w : Int) - 65536) := by
  have htag : ¬ (byteAt (listOracle [2, 2, w / 256, w % 256]) 0 ≠ ASN_INTEGER) := by
    simp [byteAt, listOracle, ASN_INTEGER]
  have hb1 : byteAt (listOracle [2, 2, w / 256, w % 256]) 1 = 2 := rfl
  have hc0 : byteAt (listOracle [2, 2, w / 256, w % 256]) (1 + 1) = w / 256 := by
    simp [byteAt, listOracle] <;> omega
  have hc1 : byteAt (listOracle [2, 2, w / 256, w % 256]) (1 + 1 + 1) = w % 256 := by
    simp [byteAt, listOracle] <;> omega
  have hlen := len32_short (listOracle [2, 2, w / 256, w % 256]) 1 (len - 1) (by omega)
    (by rw [hb1]; omega) (by rw [hb1]; omega)
  rw [hb1] at hlen
  simp only [getAsnInteger]
  rw [if_neg (show ¬ len < 1 by omega), if_neg htag, hlen]
  dsimp only
  rw [if_neg (show ¬ (PS_SUCCESS < 0) by norm_num [PS_SUCCESS])]
  rw [if_neg (show ¬ (4 < 2 ∨ 0 + len - (1 + 1) < 2) by omega)]
  rw [hc0, and128_eq (w / 256) (by omega), if_neg (show ¬ w / 256 < 128 by omega)]
  rw [if_pos (show (128 : Nat) ≠ 0 by norm_num)]
  rw [accNeg2 (listOracle [2, 2, w / 256, w % 256]) (1 + 1)]
  rw [hc0, hc1]
  rw [show ((255 - (w / 256)) * 256 + (255 - (w % 256))) = 65535 - w by omega, negDecode (65535 - w) (by omega)]
  congr 1 <;> omega

theorem c5pos3 (w : Nat) (hw : w < 8388608) (len : Nat) (hl : 5 ≤ len) :
    getAsnInteger (listOracle [2, 3, w / 65536, w / 256 % 256, w % 256]) 0 len = .ok 5 (w : Int) := by
  have htag : ¬ (byteAt (listOracle [2, 3, w / 65536, w / 256 % 256, w % 256]) 0 ≠ ASN_INTEGER) := by
    simp [byteAt, listOracle, ASN_INTEGER]
  have hb1 : byteAt (listOracle [2, 3, w / 65536, w / 256 % 256, w % 256]) 1 = 3 := rfl
  have hc0 : byteAt (listOracle [2, 3, w / 65536, w / 256 % 256, w % 256]) (1 + 1) = w / 65536 := by
    simp [byteAt, listOracle] <;> omega
  have hc1 : byteAt (listOracle [2, 3, w / 65536, w / 256 % 256, w % 256]) (1 + 1 + 1) = w / 256 % 256 := by
    simp [byteAt, listOracle] <;> omega
  have hc2 : byteAt (listOracle [2, 3, w / 65536, w / 256 % 256, w % 256]) (1 + 1 + 1 + 1) = w % 256 := by
    simp [byteAt, listOracle] <;> omega
  have hlen := len32_short (listOracle [2, 3, w / 65536, w / 256 % 256, w % 256]) 1 (len - 1) (by omega)
    (by rw [hb1]; omega) (by rw [hb1]; omega)
  rw [hb1] at hlen
  simp only [getAsnInteger]
  rw [if_neg (show ¬ len < 1 by omega), if_neg htag, hlen]
  dsimp only
  rw [if_neg (show ¬ (PS_SUCCESS < 0) by norm_num [PS_SUCCESS])]
  rw [if_neg (show ¬ (4 < 3 ∨ 0 + len - (1 + 1) < 3) by omega)]
  rw [hc0, and128_eq (w / 65536) (by omega), if_pos (show w / 65536 < 128 by omega)]
  rw [if_neg (show ¬ ((0 : Nat) ≠ 0) by norm_num)]
  rw [accPos3 (listOracle [2, 3, w / 65536, w / 256 % 256, w % 256]) (1 + 1)]
  rw [hc0, hc1, hc2]
  rw [show ((w / 65536) * 256 + w / 256 % 256) * 256 + w % 256 = w by omega, toInt32_small w (by omega)]

theorem c5neg3 (w : Nat) (h1 : 8388608 ≤ w) (h2 : w < 16777216) (len : Nat) (hl : 5 ≤ len) :
    getAsnInteger (listOracle [2, 3, w / 65536, w / 256 % 256, w % 256]) 0 len = .ok 5 ((w : Int) - 16777216) := by
  have htag : ¬ (byteAt (listOracle [2, 3, w / 65536, w / 256 % 256, w % 256]) 0 ≠ ASN_INTEGER) := by
    simp [byteAt, listOracle, ASN_INTEGER]
  have hb1 : byteAt (listOracle [2, 3, w / 65536, w / 256 % 256, w % 256]) 1 = 3 := rfl
  have hc0 : byteAt (listOracle [2, 3, w / 65536, w / 256 % 256, w % 256]) (1 + 1) = w / 65536 := by
    simp [byteAt, listOracle] <;> omega
  have hc1 : byteAt (listOracle [2, 3, w / 65536, w / 256 % 256, w % 256]) (1 + 1 + 1) = w / 256 % 256 := by
    simp [byteAt, listOracle] <;> omega
  have hc2 : byteAt (listOracle [2, 3, w / 65536, w / 256 % 256, w % 256]) (1 + 1 + 1 + 1) = w % 256 := by
    simp [byteAt, listOracle] <;> omega
  have hlen := len32_short (listOracle [2, 3, w / 65536, w / 256 % 256, w % 256]) 1 (len - 1) (by omega)
    (by rw [hb1]; omega) (by rw [hb1]; omega)
  rw [hb1] at hlen
  simp only [getAsnInteger]
  rw [if_neg (show ¬ len < 1 by omega), if_neg htag, hlen]
  dsimp only
  rw [if_neg (show ¬ (PS_SUCCESS < 0) by norm_num [PS_SUCCESS])]
  rw [if_neg (show ¬ (4 < 3 ∨ 0 + len - (1 + 1) < 3) by omega)]
  rw [hc0, and128_eq (w / 65536) (by omega), if_neg (show ¬ w / 65536 < 128 by omega)]
  rw [if_pos (show (128 : Nat) ≠ 0 by norm_num)]
  rw [accNeg3 (listOracle [2, 3, w / 65536, w / 256 % 256, w % 256]) (1 + 1)]
  rw [hc0, hc1, hc2]
  rw [show (((255 - (w / 65536)) * 256 + (255 - (w / 256 % 256))) * 256 + (255 - (w % 256))) = 16777215 - w by omega, negDecode (16777215 - w) (by omega)]
  congr 1 <;> omega

theorem c5pos4 (w : Nat) (hw : w < 2147483648) (len : Nat) (hl : 6 ≤ len) :
    getAsnInteger (listOracle [2, 4, w / 16777216, w / 65536 % 256, w / 256 % 256, w % 256]) 0 len = .ok 6 (w : Int) := by
  have htag : ¬ (byteAt (listOracle [2, 4, w / 16777216, w / 65536 % 256, w / 256 % 256, w % 256]) 0 ≠ ASN_INTEGER) := by
    simp [byteAt, listOracle, ASN_INTEGER]
  have hb1 : byteAt (listOracle [2, 4, w / 16777216, w / 65536 % 256, w / 256 % 256, w % 256]) 1 = 4 := rfl
  have hc0 : byteAt (listOracle [2, 4, w / 16777216, w / 65536 % 256, w / 256 % 256, w % 256]) (1 + 1) = w / 16777216 := by
    simp [byteAt, listOracle] <;> omega
  have hc1 : byteAt (listOracle [2, 4, w / 16777216, w / 65536 % 256, w / 256 % 256, w % 256]) (1 + 1 + 1) = w / 65536 % 256 := by
    simp [byteAt, listOracle] <;> omega
  have hc2 : byteAt (listOracle [2, 4, w / 16777216, w / 65536 % 256, w / 256 % 256, w % 256]) (1 + 1 + 1 + 1) = w / 256 % 256 := by
    simp [byteAt, listOracle] <;> omega
  have hc3 : byteAt (listOracle [2, 4, w / 16777216, w / 65536 % 256, w / 256 % 256, w % 256]) (1 + 1 + 1 + 1 + 1) = w % 256 := by
    simp [byteAt, listOracle] <;> omega
  have hlen := len32_short (listOracle [2, 4, w / 16777216, w / 65536 % 256, w / 256 % 256, w % 256]) 1 (len - 1) (by omega)
    (by rw [hb1]; omega) (by rw [hb1]; omega)
  rw [hb1] at hlen
  simp only [getAsnInteger]
  rw [if_neg (show ¬ len < 1 by omega), if_neg htag, hlen]
  dsimp only
  rw [if_neg (show ¬ (PS_SUCCESS < 0) by norm_num [PS_SUCCESS])]
  rw [if_neg (show ¬ (4 < 4 ∨ 0 + len - (1 + 1) < 4) by omega)]
  rw [hc0, and128_eq (w / 16777216) (by omega), if_pos (show w / 16777216 < 128 by omega)]
  rw [if_neg (show ¬ ((0 : Nat) ≠ 0) by norm_num)]
  rw [accPos4 (listOracle [2, 4, w / 16777216, w / 65536 % 256, w / 256 % 256, w % 256]) (1 + 1)]
  rw [hc0, hc1, hc2, hc3]
  rw [show (((w / 16777216) * 256 + w / 65536 % 256) * 256 + w / 256 % 256) * 256 + w % 256 = w by omega, toInt32_small w (by omega)]

theorem c5neg4 (w : Nat) (h1 : 2147483648 ≤ w) (h2 : w < 4294967296) (len : Nat) (hl : 6 ≤ len) :
    getAsnInteger (listOracle [2, 4, w / 16777216, w / 65536 % 256, w / 256 % 256, w % 256]) 0 len = .ok 6 ((w : Int) - 4294967296) := by
  have htag : ¬ (byteAt (listOracle [2, 4, w / 16777216, w / 65536 % 256, w / 256 % 256, w % 256]) 0 ≠ ASN_INTEGER) := by
    simp [byteAt, listOracle, ASN_INTEGER]
  have hb1 : byteAt (listOracle [2, 4, w / 16777216, w / 65536 % 256, w / 256 % 256, w % 256]) 1 = 4 := rfl
  have hc0 : byteAt (listOracle [2, 4, w / 16777216, w / 65536 % 256, w / 256 % 256, w % 256]) (1 + 1) = w / 16777216 := by
    simp [byteAt, listOracle] <;> omega
  have hc1 : byteAt (listOracle [2, 4, w / 16777216, w / 65536 % 256, w / 256 % 256, w % 256]) (1 + 1 + 1) = w / 65536 % 256 := by
    simp [byteAt, listOracle] <;> omega
  have hc2 : byteAt (listOracle [2, 4, w / 16777216, w / 65536 % 256, w / 256 % 256, w % 256]) (1 + 1 + 1 + 1) = w / 256 % 256 := by
    simp [byteAt, listOracle] <;> omega
  have hc3 : byteAt (listOracle [2, 4, w / 16777216, w / 65536 % 256, w / 256 % 256, w % 256]) (1 + 1 + 1 + 1 + 1) = w % 256 := by
    simp [byteAt, listOracle] <;> omega
  have hlen := len32_short (listOracle [2, 4, w / 16777216, w / 65536 % 256, w / 256 % 256, w % 256]) 1 (len - 1) (by omega)
    (by rw [hb1]; omega) (by rw [hb1]; omega)
  rw [hb1] at hlen
  simp only [getAsnInteger]
  rw [if_neg (show ¬ len < 1 by omega), if_neg htag, hlen]
  dsimp only
  rw [if_neg (show ¬ (PS_SUCCESS < 0) by norm_num [PS_SUCCESS])]
  rw [if_neg (show ¬ (4 < 4 ∨ 0 + len - (1 + 1) < 4) by omega)]
  rw [hc0, and128_eq (w / 16777216) (by omega), if_neg (show ¬ w / 16777216 < 128 by omega)]
  rw [if_pos (show (128 : Nat) ≠ 0 by norm_num)]
  rw [accNeg4 (listOracle [2, 4, w / 16777216, w / 65536 % 256, w / 256 % 256, w % 256]) (1 + 1)]
  rw [hc0, hc1, hc2, hc3]
  rw [show ((((255 - (w / 16777216)) * 256 + (255 - (w / 65536 % 256))) * 256 + (255 - (w / 256 % 256))) * 256 + (255 - (w % 256))) = 4294967295 - w by omega, negDecode (4294967295 - w) (by omega)]
  congr 1 <;> omega


/-- C5: `getAsnInteger` round-trips every 32-bit signed value: for every `v`
in `[-2^31, 2^31 - 1]`, decoding the canonical DER encoding of `v` (tag 0x02,
minimal-length two's-complement big-endian content) with any sufficient
declared length returns `PS_SUCCESS`, stores exactly `v`, and advances the
pointer exactly past the encoding. -/
theorem c5_getAsnInteger_roundtrip (v : Int) (hlo : -0x80000000 ≤ v) (hhi : v ≤ 0x7FFFFFFF)
    (len : Nat) (hlen : (derIntEncode v).length ≤ len) :
    getAsnInteger (listOracle (derIntEncode v)) 0 len = .ok (derIntEncode v).length v := by
  by_cases hv : 0 ≤ v
  · by_cases hc1 : v < 0x80
    · have he : derIntEncode v = [2, 1, v.toNat] := by
        simp [derIntEncode, derIntContent, hv, show v.toNat < 0x80 by omega]
      rw [he] at hlen ⊢
      show getAsnInteger (listOracle [2, 1, v.toNat]) 0 len = AsnIntResult.ok 3 v
      rw [c5pos1 v.toNat (by omega) len (by simpa using hlen)]
      simp [Int.toNat_of_nonneg hv]
    · by_cases hc2 : v < 0x8000
      · have he : derIntEncode v = [2, 2, v.toNat / 256, v.toNat % 256] := by
          simp [derIntEncode, derIntContent, hv, show ¬ v.toNat < 0x80 by omega,
            show v.toNat < 0x8000 by omega]
        rw [he] at hlen ⊢
        show getAsnInteger (listOracle [2, 2, v.toNat / 256, v.toNat % 256]) 0 len =
          AsnIntResult.ok 4 v
        rw [c5pos2 v.toNat (by omega) len (by simpa using hlen)]
        simp [Int.toNat_of_nonneg hv]
      · by_cases hc3 : v < 0x800000
        · have he : derIntEncode v =
              [2, 3, v.toNat / 65536, v.toNat / 256 % 256, v.toNat % 256] := by
            simp [derIntEncode, derIntContent, hv, show ¬ v.toNat < 0x80 by omega,
              show ¬ v.toNat < 0x8000 by omega, show v.toNat < 0x800000 by omega]
          rw [he] at hlen ⊢
          show getAsnInteger
              (listOracle [2, 3, v.toNat / 65536, v.toNat / 256 % 256, v.toNat % 256]) 0 len =
            AsnIntResult.ok 5 v
          rw [c5pos3 v.toNat (by omega) len (by simpa using hlen)]
          simp [Int.toNat_of_nonneg hv]
        · have he : derIntEncode v =
              [2, 4, v.toNat / 16777216, v.toNat / 65536 % 256, v.toNat / 256 % 256,
                v.toNat % 256] := by
            simp [derIntEncode, derIntContent, hv, show ¬ v.toNat < 0x80 by omega,
              show ¬ v.toNat < 0x8000 by omega, show ¬ v.toNat < 0x800000 by omega]
          rw [he] at hlen ⊢
          show getAsnInteger
              (listOracle [2, 4, v.toNat / 16777216, v.toNat / 65536 % 256,
                v.toNat / 256 % 256, v.toNat % 256]) 0 len =
            AsnIntResult.ok 6 v
          rw [c5pos4 v.toNat (by omega) len (by simpa using hlen)]
          simp [Int.toNat_of_nonneg hv]
  · by_cases hc1 : -0x80 ≤ v
    · have he : derIntEncode v = [2, 1, (v + 0x100).toNat] := by
        simp [derIntEncode, derIntContent, hv, hc1]
      rw [he] at hlen ⊢
      show getAsnInteger (listOracle [2, 1, (v + 0x100).toNat]) 0 len = AsnIntResult.ok 3 v
      rw [c5neg1 (v + 0x100).toNat (by omega) (by omega) len (by simpa using hlen)]
      congr 1 <;> omega
    · by_cases hc2 : -0x8000 ≤ v
      · have he : derIntEncode v =
            [2, 2, (v + 0x10000).toNat / 256, (v + 0x10000).toNat % 256] := by
          simp [derIntEncode, derIntContent, hv, hc1, hc2]
        rw [he] at hlen ⊢
        show getAsnInteger
            (listOracle [2, 2, (v + 0x10000).toNat / 256, (v + 0x10000).toNat % 256]) 0 len =
          AsnIntResult.ok 4 v
        rw [c5neg2 (v + 0x10000).toNat (by omega) (by omega) len (by simpa using hlen)]
        congr 1 <;> omega
      · by_cases hc3 : -0x800000 ≤ v
        · have he : derIntEncode v =
              [2, 3, (v + 0x1000000).toNat / 65536, (v + 0x1000000).toNat / 256 % 256,
                (v + 0x1000000).toNat % 256] := by
            simp [derIntEncode, derIntContent, hv, hc1, hc2, hc3]
          rw [he] at hlen ⊢
          show getAsnInteger
              (listOracle [2, 3, (v + 0x1000000).toNat / 65536,
                (v + 0x1000000).toNat / 256 % 256, (v + 0x1000000).toNat % 256]) 0 len =
            AsnIntResult.ok 5 v
          rw [c5neg3 (v + 0x1000000).toNat (by omega) (by omega) len (by simpa using hlen)]
          congr 1 <;> omega
        · have he : derIntEncode v =
              [2, 4, (v + 0x100000000).toNat / 16777216, (v + 0x100000000).toNat / 65536 % 256,
                (v + 0x100000000).toNat / 256 % 256, (v + 0x100000000).toNat % 256] := by
            simp [derIntEncode, derIntContent, hv, hc1, hc2, hc3]
          rw [he] at hlen ⊢
          show getAsnInteger
              (listOracle [2, 4, (v + 0x100000000).toNat / 16777216,
                (v + 0x100000000).toNat / 65536 % 256, (v + 0x100000000).toNat / 256 % 256,
                (v + 0x100000000).toNat % 256]) 0 len =
            AsnIntResult.ok 6 v
          rw [c5neg4 (v + 0x100000000).toNat (by omega) (by omega) len (by simpa using hlen)]
          congr 1 <;> omega

/-- C5 witness: the round trip applied at the boundary value `-0x80000000`
with the exact declared length 6. -/
theorem c5_getAsnInteger_roundtrip_witness :
    getAsnInteger (listOracle (derIntEncode (-0x80000000))) 0 6 =
      .ok (derIntEncode (-0x80000000)).length (-0x80000000) :=
  c5_getAsnInteger_roundtrip (-0x80000000) (by norm_num) (by norm_num) 6 (by decide)


/-- Writing at the boundary of an append overwrites the first bytes of the
second part. -/
theorem writeAt_append (l1 l2 bs : List Nat) :
    writeAt (l1 ++ l2) l1.length bs = l1 ++ bs ++ l2.drop bs.length := by
  unfold writeAt
  rw [List.take_left, List.drop_append]

/-- With a successful allocator and no sticky error, `psDynBufAppendSize`
always succeeds: the content gains `sz` claimed bytes and only the tail room
changes. -/
theorem appendSize_eq (growMin : Nat) (db : DynBufRoot) (sz : Nat) (herr : db.err = 0) :
    ∃ t, psDynBufAppendSize growMin true db sz =
      (true, ⟨db.headroom, db.content ++ List.replicate sz 0, t, 0⟩) := by
  by_cases hroom : sz ≤ db.tailroom
  · refine ⟨db.tailroom - sz, ?_⟩
    simp [psDynBufAppendSize, hroom, herr]
  · by_cases hg : sz < growMin
    · refine ⟨db.tailroom + growMin - sz, ?_⟩
      simp [psDynBufAppendSize, psDynBufGrow, hroom, herr, hg,
        show sz ≤ db.tailroom + growMin by omega]
    · refine ⟨db.tailroom + sz - sz, ?_⟩
      simp [psDynBufAppendSize, psDynBufGrow, hroom, herr, hg,
        show sz ≤ db.tailroom + sz by omega]

/-- Shape of a freshly opened sub-buffer over an error-free master: the
claimed span sits at the end of the master's content, filled with `'#'`, and
the child cursors are empty. -/
theorem subInit_eq (growMin : Nat) (db : DynBufRoot) (S : Nat) (herr : db.err = 0) :
    ∃ t, psDynBufSubInit growMin true db S =
      (true, ⟨⟨db.headroom, db.content ++ List.replicate S 0x23, t, 0⟩,
        db.content.length, 0, 0, S, 0⟩) := by
  obtain ⟨t, ht⟩ := appendSize_eq growMin db S herr
  refine ⟨t, ?_⟩
  simp only [psDynBufSubInit, ht]
  simp [writeAt_append, List.drop_replicate]


/-- Writing `bs` into a fresh sub-buffer of capacity `S ≥ |bs|` overwrites
the first `|bs|` claimed bytes and advances the child's write cursor. -/
theorem subAppend_eq (db : DynBufRoot) (S t : Nat) (bs : List Nat) (hk : bs.length ≤ S) :
    psDynBufSubAppendBytes
      ⟨⟨db.headroom, db.content ++ List.replicate S 0x23, t, 0⟩,
        db.content.length, 0, 0, S, 0⟩ bs =
      (true, ⟨⟨db.headroom, db.content ++ bs ++ List.replicate (S - bs.length) 0x23, t, 0⟩,
        db.content.length, 0, bs.length, S, 0⟩) := by
  simp only [psDynBufSubAppendBytes]
  rw [if_pos (show 0 + bs.length ≤ S by omega)]
  rw [Nat.add_zero, writeAt_append, List.drop_replicate]
  simp [List.append_assoc]

/-- Finishing a sub-buffer that holds `bs` in a claimed span of `S` bytes
compacts the master: the unused `S - |bs|` bytes are dropped and returned to
the tail room. -/
theorem subFinish_eq (db : DynBufRoot) (S t : Nat) (bs : List Nat) (hk : bs.length ≤ S) :
    psDynBufSubFinish
      ⟨⟨db.headroom, db.content ++ bs ++ List.replicate (S - bs.length) 0x23, t, 0⟩,
        db.content.length, 0, bs.length, S, 0⟩ =
      (true, ⟨db.headroom, db.content ++ bs, t + (S - bs.length), 0⟩) := by
  simp only [psDynBufSubFinish]
  rw [if_neg (show ¬ ((0 : Nat) ≠ 0) by norm_num)]
  have hot : (db.content ++ bs ++ List.replicate (S - bs.length) 0x23).length -
      (db.content.length + S) = 0 := by
    simp [List.length_append]
    omega
  rw [hot]
  rw [if_neg (show ¬ (0 : Nat) < 0 by omega)]
  rw [if_neg (show ¬ ((0 : Nat) ≠ 0 ∧ 0 < bs.length - 0) by simp)]
  have htake : List.take
      ((db.content ++ bs ++ List.replicate (S - bs.length) 0x23).length - S +
        (bs.length - 0))
      (db.content ++ bs ++ List.replicate (S - bs.length) 0x23) = db.content ++ bs :=
    List.take_left' (by simp [List.length_append]; omega)
  rw [htake]
  simp


/-- C6: the sub-buffer round trip.  Opening a sub-buffer of any slack
capacity `S` on a non-errored parent (with the allocator succeeding), writing
`k ≤ S` content bytes into it, and finishing leaves the parent holding its
previous content immediately followed by exactly those `k` bytes with no gap
— its write cursor advanced by exactly `k` and its head room untouched —
independently of `S`. -/
theorem c6_sub_roundtrip (growMin : Nat) (db : DynBufRoot) (S : Nat) (bs : List Nat)
    (herr : db.err = 0) (hk : bs.length ≤ S) :
    (psDynBufSubInit growMin true db S).1 = true ∧
    (psDynBufSubAppendBytes (psDynBufSubInit growMin true db S).2 bs).1 = true ∧
    (psDynBufSubFinish
      (psDynBufSubAppendBytes (psDynBufSubInit growMin true db S).2 bs).2).1 = true ∧
    (psDynBufSubFinish
      (psDynBufSubAppendBytes (psDynBufSubInit growMin true db S).2 bs).2).2.content =
      db.content ++ bs ∧
    (psDynBufSubFinish
      (psDynBufSubAppendBytes (psDynBufSubInit growMin true db S).2 bs).2).2.err = 0 ∧
    (psDynBufSubFinish
      (psDynBufSubAppendBytes (psDynBufSubInit growMin true db S).2 bs).2).2.headroom =
      db.headroom := by
  obtain ⟨t, hsi⟩ := subInit_eq growMin db S herr
  rw [hsi]
  dsimp only
  rw [subAppend_eq db S t bs hk]
  dsimp only
  rw [subFinish_eq db S t bs hk]
  simp

/-- C6 witness: the round trip at a concrete parent, slack 5 and 3 written
bytes. -/
theorem c6_sub_roundtrip_witness :
    (psDynBufSubFinish (psDynBufSubAppendBytes
      (psDynBufSubInit 64 true ⟨2, [9, 8], 1, 0⟩ 5).2 [1, 2, 3]).2).2.content =
      [9, 8] ++ [1, 2, 3] :=
  (c6_sub_roundtrip 64 ⟨2, [9, 8], 1, 0⟩ 5 [1, 2, 3] (by decide) (by decide)).2.2.2.1
